import Mathlib

/-!
A shallow embedding of the `auth_akarin_rand` obfuscation/authentication layer
(`shadowsocks/obfsplugin/auth_akarin.py`) together with proofs about it.

Bytes are modelled as `List Nat` (each entry intended `< 256`); Python
`struct.pack`/`unpack` little-endian codecs become explicit arithmetic;
Python big integers are `Nat` with masking written out where the source
masks.  External cryptographic primitives (HMAC-MD5, AES-128-CBC,
ChaCha20, `openssl.rand_bytes`) are not part of this repository's source
file and are modelled as parameters (see `Prims` below).
-/

set_option maxRecDepth 40000
set_option maxHeartbeats 1000000

abbrev Bytes := List Nat

/-- `struct.pack('<H', n)`: two little-endian bytes. -/
def packH (n : Nat) : Bytes := [n % 256, n / 256 % 256]

/-- `struct.unpack('<H', b)[0]` on (the first two bytes of) `b`. -/
def unpackH (b : Bytes) : Nat := b.getD 0 0 + 256 * b.getD 1 0

/-- `struct.pack('<I', n)`: four little-endian bytes. -/
def packI (n : Nat) : Bytes :=
  [n % 256, n / 256 % 256, n / 65536 % 256, n / 16777216 % 256]

/-- `struct.unpack('<I', b)[0]` on (the first four bytes of) `b`. -/
def unpackI (b : Bytes) : Nat :=
  b.getD 0 0 + 256 * b.getD 1 0 + 65536 * b.getD 2 0 + 16777216 * b.getD 3 0

/-- `struct.unpack('<Q', b)[0]` on (the first eight bytes of) `b`. -/
def unpackQ (b : Bytes) : Nat :=
  b.getD 0 0 + 256 * b.getD 1 0 + 65536 * b.getD 2 0 + 16777216 * b.getD 3 0 +
  4294967296 * b.getD 4 0 + 1099511627776 * b.getD 5 0 +
  281474976710656 * b.getD 6 0 + 72057594037927936 * b.getD 7 0

/-- The `xorshift128plus` PRNG of auth_akarin (source lines 58–85). -/
structure xorshift128plus where
  v0 : Nat
  v1 : Nat
deriving DecidableEq

/-- `xorshift128plus.max_int = (1 << 64) - 1`. -/
def xorshift128plus.max_int : Nat := 2 ^ 64 - 1

/-- `xorshift128plus.mov_mask = (1 << (64 - 23)) - 1`. -/
def xorshift128plus.mov_mask : Nat := 2 ^ 41 - 1

/-- `xorshift128plus.next()`: returns the drawn value and the updated state. -/
def xorshift128plus.next (s : xorshift128plus) : Nat × xorshift128plus :=
  let x := s.v0
  let y := s.v1
  let x := x ^^^ ((x &&& xorshift128plus.mov_mask) <<< 23)
  let x := x ^^^ (y ^^^ ((x >>> 17) ^^^ (y >>> 26)))
  ((x + y) &&& xorshift128plus.max_int, ⟨y, x⟩)

/-- `xorshift128plus.init_from_bin(bin)`: pad with 16 zero bytes when short,
then read two little-endian u64 words. -/
def xorshift128plus.init_from_bin (bin : Bytes) : xorshift128plus :=
  let bin := if bin.length < 16 then bin ++ List.replicate 16 0 else bin
  ⟨unpackQ (bin.take 8), unpackQ ((bin.drop 8).take 8)⟩

/-- `xorshift128plus.init_from_bin_len(bin, length)`: as `init_from_bin`, but
the low two bytes of `v0` are replaced by `length` as a little-endian u16. -/
def xorshift128plus.init_from_bin_len (bin : Bytes) (length : Nat) : xorshift128plus :=
  let bin := if bin.length < 16 then bin ++ List.replicate 16 0 else bin
  ⟨unpackQ (packH length ++ ((bin.drop 2).take 6)), unpackQ ((bin.drop 8).take 8)⟩

/-!  ## The replay guard: `client_queue` (source lines 132–184)

Connection ids are modelled as `Int` (Python ints; `front = begin_id - 64`
can go negative).  `alloc` (a Python dict used as a set) is a duplicate-free
`List Int`.  `time.time()` is threaded in as an explicit `now : Nat`
argument; `is_active`'s ten-minute window is `60 * 10` seconds. -/

structure client_queue where
  front : Int
  back : Int
  alloc : List Int
  enable : Bool
  last_update : Nat
  ref : Nat
deriving DecidableEq

/-- `client_queue.__init__(begin_id)`. -/
def client_queue.init (begin_id : Int) (now : Nat) : client_queue :=
  ⟨begin_id - 64, begin_id + 1, [], true, now, 0⟩

/-- `client_queue.update()`. -/
def client_queue.update (q : client_queue) (now : Nat) : client_queue :=
  { q with last_update := now }

/-- `client_queue.addref()`. -/
def client_queue.addref (q : client_queue) : client_queue :=
  { q with ref := q.ref + 1 }

/-- `client_queue.delref()`. -/
def client_queue.delref (q : client_queue) : client_queue :=
  if q.ref > 0 then { q with ref := q.ref - 1 } else q

/-- `client_queue.is_active()`. -/
def client_queue.is_active (q : client_queue) (now : Nat) : Bool :=
  q.ref > 0 && now - q.last_update < 60 * 10

/-- `client_queue.re_enable(connection_id)`. -/
def client_queue.re_enable (q : client_queue) (connection_id : Int) : client_queue :=
  { q with enable := true, front := connection_id - 64, back := connection_id + 1,
           alloc := [] }

/-- The `while (self.front in self.alloc) or self.front + 0x1000 < self.back`
loop at the end of `client_queue.insert`, with explicit fuel.  Each iteration
either erases an `alloc` entry or (with `back - front > 0x1000`) moves `front`
one step towards `back`, so `alloc.length + (back - front).toNat` bounds the
number of iterations. -/
def client_queue.advance_front (fuel : Nat) (front back : Int) (alloc : List Int) :
    Int × List Int :=
  match fuel with
  | 0 => (front, alloc)
  | fuel + 1 =>
    if alloc.contains front || front + 0x1000 < back then
      let alloc := if alloc.contains front then alloc.erase front else alloc
      client_queue.advance_front fuel (front + 1) back alloc
    else (front, alloc)

/-- The body of `client_queue.insert` after the `enable`/`is_active`/`update`
preamble: the three refusal checks and the accepted-id bookkeeping.  The state
it receives is the state "at the moment of acceptance". -/
def client_queue.insert_checked (q : client_queue) (connection_id : Int) :
    Bool × client_queue :=
  if connection_id < q.front then (false, q)
  else if connection_id > q.front + 0x4000 then (false, q)
  else if q.alloc.contains connection_id then (false, q)
  else
    let q := if q.back ≤ connection_id then { q with back := connection_id + 1 } else q
    let q := { q with alloc := q.alloc ++ [connection_id] }
    let fa := client_queue.advance_front (q.alloc.length + (q.back - q.front).toNat)
      q.front q.back q.alloc
    (true, { q with front := fa.1, alloc := fa.2, ref := q.ref + 1 })

/-- `client_queue.insert(connection_id)`: returns the accept/refuse flag and
the updated queue. -/
def client_queue.insert (q : client_queue) (connection_id : Int) (now : Nat) :
    Bool × client_queue :=
  if ¬ q.enable then (false, q)
  else
    let q := if ¬ q.is_active now then q.re_enable connection_id else q
    let q := q.update now
    q.insert_checked connection_id

/-!  ## The server-side replay-guard table: `obfs_auth_akarin_data`
(source lines 187–241).

`lru_cache.LRUCache` is not part of this source file.
Modelled from the spec: `user_table: map<user_id, bounded-LRU<client_id,
ClientQueue>>`, where `first()` is the least-recently-inserted entry; the
per-user cache is an association list in insertion order (head oldest).
The user id key is `Option Bytes` because the server inserts `self.user_id`,
which stays Python `None` for an unknown uid. -/

structure obfs_auth_akarin_data where
  user_id : List (Option Bytes × List (Nat × client_queue))
  local_client_id : Bytes
  connection_id : Nat
  max_client : Nat
  max_buffer : Nat
deriving DecidableEq

/-- `obfs_auth_akarin_data.__init__` (with `set_max_client(64)`). -/
def obfs_auth_akarin_data.init : obfs_auth_akarin_data :=
  ⟨[], [], 0, 64, max (64 * 2) 1024⟩

/-- Association-list lookup helper for the replay-guard tables. -/
def alist_get {α β : Type} [DecidableEq α] (l : List (α × β)) (k : α) : Option β :=
  match l with
  | [] => none
  | (k', v) :: t => if k' = k then some v else alist_get t k

/-- Association-list store helper: replaces in place, else appends (so the
head stays the oldest entry). -/
def alist_set {α β : Type} [DecidableEq α] (l : List (α × β)) (k : α) (v : β) :
    List (α × β) :=
  match l with
  | [] => [(k, v)]
  | (k', v') :: t => if k' = k then (k, v) :: t else (k', v') :: alist_set t k v

/-- `obfs_auth_akarin_data.set_max_client`. -/
def obfs_auth_akarin_data.set_max_client (d : obfs_auth_akarin_data) (m : Nat) :
    obfs_auth_akarin_data :=
  { d with max_client := m, max_buffer := max (m * 2) 1024 }

/-- `obfs_auth_akarin_data.update(user_id, client_id, connection_id)`:
touches the queue's `last_update` when present. -/
def obfs_auth_akarin_data.update (d : obfs_auth_akarin_data) (uid : Option Bytes)
    (client_id : Nat) (now : Nat) : obfs_auth_akarin_data :=
  match alist_get d.user_id uid with
  | none => { d with user_id := alist_set d.user_id uid [] }
  | some tbl =>
    match alist_get tbl client_id with
    | none => d
    | some q =>
      let tbl := alist_set tbl client_id (q.update now)
      { d with user_id := alist_set d.user_id uid tbl }

/-- Install a fresh or re-enabled queue for `client_id` and delegate to
`client_queue.insert` (the shared tail of both install paths in
`obfs_auth_akarin_data.insert`). -/
def obfs_auth_akarin_data.install_insert (tbl : List (Nat × client_queue))
    (client_id : Nat) (connection_id : Int) (now : Nat) :
    Bool × List (Nat × client_queue) :=
  let q := match alist_get tbl client_id with
           | none => client_queue.init connection_id now
           | some q0 => q0.re_enable connection_id
  let r := q.insert connection_id now
  (r.1, alist_set tbl client_id r.2)

/-- `obfs_auth_akarin_data.insert(user_id, client_id, connection_id)`. -/
def obfs_auth_akarin_data.insert (d : obfs_auth_akarin_data) (uid : Option Bytes)
    (client_id : Nat) (connection_id : Int) (now : Nat) :
    Bool × obfs_auth_akarin_data :=
  let tbl := (alist_get d.user_id uid).getD []
  let stale := match alist_get tbl client_id with
               | none => true
               | some q => ¬ q.enable
  if stale then
    if tbl = [] ∨ tbl.length < d.max_client then
      let r := obfs_auth_akarin_data.install_insert tbl client_id connection_id now
      (r.1, { d with user_id := alist_set d.user_id uid r.2 })
    else
      match tbl with
      | [] => (false, d)
      | (oldest, q0) :: rest =>
        if ¬ q0.is_active now then
          let _ := oldest
          let r := obfs_auth_akarin_data.install_insert rest client_id connection_id now
          (r.1, { d with user_id := alist_set d.user_id uid r.2 })
        else (false, d)
  else
    match alist_get tbl client_id with
    | none => (false, d)
    | some q =>
      let r := q.insert connection_id now
      let tbl := alist_set tbl client_id r.2
      (r.1, { d with user_id := alist_set d.user_id uid tbl })

/-- `obfs_auth_akarin_data.remove(user_id, client_id)`. -/
def obfs_auth_akarin_data.remove (d : obfs_auth_akarin_data) (uid : Option Bytes)
    (client_id : Nat) : obfs_auth_akarin_data :=
  match alist_get d.user_id uid with
  | none => d
  | some tbl =>
    match alist_get tbl client_id with
    | none => d
    | some q =>
      let tbl := alist_set tbl client_id q.delref
      { d with user_id := alist_set d.user_id uid tbl }

/-!  ## Claim C4: PRNG fixed vectors -/

/-- C4, counterexample: after `init_from_bin_len(0x00×16, 1)` the first
`next()` returns `0x800041`, not `0x0000000000000001` as the claim states
(the claim's `v0 = 1` part does hold). -/
theorem akarin_c4_counterexample :
    (xorshift128plus.init_from_bin_len (List.replicate 16 0) 1).v0 = 1 ∧
    (xorshift128plus.init_from_bin_len (List.replicate 16 0) 1).next.1 ≠
      0x0000000000000001 := by
  constructor
  · decide
  · decide

/-- C4 (amended): after `init_from_bin` on 16 zero bytes, the first `next()`
returns 0; after `init_from_bin_len` on 16 zero bytes with length 1, the
state word `v0` is `0x0000000000000001` and the first `next()` returns
`0x0000000000800041` (the length word is diffused through the xorshift
before the first output, so the first draw is not `v0` itself). -/
theorem akarin_c4_prng_fixed_vectors :
    (xorshift128plus.init_from_bin (List.replicate 16 0)).next.1 = 0 ∧
    (xorshift128plus.init_from_bin_len (List.replicate 16 0) 1).v0 =
      0x0000000000000001 ∧
    (xorshift128plus.init_from_bin_len (List.replicate 16 0) 1).next.1 =
      0x0000000000800041 := by
  refine ⟨by decide, by decide, by decide⟩

/-!  ## Claim C5: the replay-guard scenario -/

/-- The (uid, client) pair the C5 scenario runs under. -/
def c5_uid : Option Bytes := some [1, 0, 0, 0]

/-- Feed a list of connection ids one by one to
`obfs_auth_akarin_data.insert` for the fixed (uid, client) pair, collecting
each accept/refuse answer (all at the same `now = 0`, so the queue created by
the first insert stays active). -/
def c5_run (cs : List Int) : List Bool × obfs_auth_akarin_data :=
  cs.foldl (fun (acc : List Bool × obfs_auth_akarin_data) c =>
    let r := acc.2.insert c5_uid 2 c 0
    (acc.1 ++ [r.1], r.2)) ([], obfs_auth_akarin_data.init)

/-- The C5 connection-id sequence: 100, 100 again, 35, 0x4101,
101 … 164, then 36. -/
def c5_ids : List Int :=
  [100, 100, 35, 0x4101] ++ (List.range 64).map (fun i => (101 + i : Int)) ++ [36]

/-- C5, counterexample: after the scripted inserts, the final `insert(36)`
SUCCEEDS (36 is not below `front = 36`, is inside the window, and was never
allocated), contradicting the claim that it fails. -/
theorem akarin_c5_counterexample :
    (c5_run c5_ids).1.getLast? = some true ∧ some true ≠ some false := by
  constructor
  · decide
  · decide

/-- C5 (amended): insert(100) succeeds; insert(100) again fails (duplicate);
insert(35) fails (below `front = 36`); insert(0x4101) fails (beyond
`front + 0x4000`); inserting 101 … 164 in order all succeed; and the
subsequent insert(36) also succeeds (36 never entered `alloc`, and `front`
is still 36 because `back − front` never exceeded 0x1000). -/
theorem akarin_c5_replay_guard_scenario :
    (c5_run c5_ids).1 =
      [true, false, false, false] ++ List.replicate 64 true ++ [true] := by
  decide

/-!  ## Claim C7: client_queue window invariants

`WF` is the inductive invariant: `front ≤ back`, `alloc` duplicate-free, and
every allocated id inside `[front, back)`. -/

def client_queue.WF (q : client_queue) : Prop :=
  q.front ≤ q.back ∧ q.alloc.Nodup ∧ ∀ a ∈ q.alloc, q.front ≤ a ∧ a < q.back

instance (q : client_queue) : Decidable q.WF := by
  unfold client_queue.WF
  infer_instance

theorem advance_front_wf (fuel : Nat) (front back : Int) (alloc : List Int)
    (h1 : front ≤ back) (h2 : alloc.Nodup) (h3 : ∀ a ∈ alloc, front ≤ a ∧ a < back) :
    (client_queue.advance_front fuel front back alloc).1 ≤ back ∧
    (client_queue.advance_front fuel front back alloc).2.Nodup ∧
    ∀ a ∈ (client_queue.advance_front fuel front back alloc).2,
      (client_queue.advance_front fuel front back alloc).1 ≤ a ∧ a < back := by
  induction fuel generalizing front alloc with
  | zero => exact ⟨h1, h2, h3⟩
  | succ n ih =>
    rw [client_queue.advance_front]
    cases hcb : (alloc.contains front || decide (front + 0x1000 < back)) with
    | false =>
      simp only [if_false, Bool.false_eq_true, reduceIte]
      exact ⟨h1, h2, h3⟩
    | true =>
      simp only [if_true]
      by_cases hm : alloc.contains front = true
      · have hmem : front ∈ alloc := by simpa using hm
        have hfb : front + 1 ≤ back := by
          have := (h3 front hmem).2; omega
        simp only [hm, if_true]
        exact ih (front + 1) (alloc.erase front) hfb (h2.erase front)
          (fun a ha => by
            have h4 := (h2.mem_erase_iff.mp ha)
            have h5 := h3 a h4.2
            have h6 : a ≠ front := h4.1
            omega)
      · have hnm : front ∉ alloc := fun hmem => hm (by simpa using hmem)
        have hlt : front + 0x1000 < back := by
          rcases Bool.or_eq_true_iff.mp hcb with h | h
          · exact absurd h hm
          · exact of_decide_eq_true h
        have hfb : front + 1 ≤ back := by omega
        simp only [hm, if_false, Bool.false_eq_true, reduceIte]
        exact ih (front + 1) alloc hfb h2
          (fun a ha => by
            have h5 := h3 a ha
            have h6 : a ≠ front := fun e => hnm (e ▸ ha)
            omega)

theorem init_wf (b : Int) (now : Nat) : (client_queue.init b now).WF := by
  refine ⟨by simp [client_queue.init]; omega, by simp [client_queue.init], ?_⟩
  intro a ha
  simp [client_queue.init] at ha

theorem re_enable_wf (q : client_queue) (c : Int) : (q.re_enable c).WF := by
  refine ⟨by simp [client_queue.re_enable]; omega, by simp [client_queue.re_enable], ?_⟩
  intro a ha
  simp [client_queue.re_enable] at ha

theorem advance_front_state_wf (front back : Int) (alloc : List Int)
    (en : Bool) (lu rf : Nat) (fuel : Nat)
    (h1 : front ≤ back) (h2 : alloc.Nodup)
    (h3 : ∀ a ∈ alloc, front ≤ a ∧ a < back) :
    (client_queue.mk (client_queue.advance_front fuel front back alloc).1 back
      (client_queue.advance_front fuel front back alloc).2 en lu rf).WF := by
  have := advance_front_wf fuel front back alloc h1 h2 h3
  exact ⟨this.1, this.2.1, this.2.2⟩

theorem insert_checked_wf (q : client_queue) (c : Int) (h : q.WF) :
    (q.insert_checked c).2.WF := by
  obtain ⟨h1, h2, h3⟩ := h
  rw [client_queue.insert_checked]
  by_cases hlt : c < q.front
  · simpa [hlt] using ⟨h1, h2, h3⟩
  by_cases hgt : c > q.front + 0x4000
  · simpa [hlt, hgt] using ⟨h1, h2, h3⟩
  by_cases hm : c ∈ q.alloc
  · simpa [hlt, hgt, hm] using ⟨h1, h2, h3⟩
  have hnodup : (q.alloc ++ [c]).Nodup := by
    simp [List.nodup_append, h2, hm]
  by_cases hbc : q.back ≤ c
  · simp only [hlt, hgt, hm, if_false, Bool.false_eq_true, reduceIte, hbc, if_true,
      List.elem_eq_mem, decide_eq_true_eq]
    refine advance_front_state_wf _ _ _ _ _ _ _ (by omega) hnodup ?_
    intro a ha
    rcases List.mem_append.mp ha with ha | ha
    · have := h3 a ha; omega
    · simp at ha; omega
  · simp only [hlt, hgt, hm, if_false, Bool.false_eq_true, reduceIte, hbc,
      List.elem_eq_mem, decide_eq_true_eq]
    refine advance_front_state_wf _ _ _ _ _ _ _ (by omega) hnodup ?_
    intro a ha
    rcases List.mem_append.mp ha with ha | ha
    · have := h3 a ha; omega
    · simp at ha; omega

theorem insert_wf (q : client_queue) (c : Int) (now : Nat) (h : q.WF) :
    (q.insert c now).2.WF := by
  rw [client_queue.insert]
  by_cases he : q.enable = true
  · simp only [he, not_true, reduceIte]
    by_cases ha : q.is_active now = true
    · simp only [ha, not_true, reduceIte]
      refine insert_checked_wf _ _ ?_
      exact ⟨h.1, h.2.1, h.2.2⟩
    · simp only [ha]
      refine insert_checked_wf _ _ ?_
      have := re_enable_wf q c
      exact ⟨this.1, this.2.1, this.2.2⟩
  · simp only [he]
    simpa using h

theorem insert_checked_accepts (q : client_queue) (c : Int)
    (h : (q.insert_checked c).1 = true) :
    q.front ≤ c ∧ c ≤ q.front + 0x4000 ∧ c ∉ q.alloc := by
  rw [client_queue.insert_checked] at h
  by_cases hlt : c < q.front
  · simp [hlt] at h
  by_cases hgt : c > q.front + 0x4000
  · simp [hlt, hgt] at h
  by_cases hm : c ∈ q.alloc
  · simp [hlt, hgt, hm] at h
  exact ⟨by omega, by omega, hm⟩

/-- C7: construction, `re_enable`, and `insert` (accepted or refused) all
preserve `front ≤ back` (as part of the full invariant `WF`), and every
connection id accepted by the checked part of `insert` is, at the moment of
acceptance, at least `front`, at most `front + 0x4000`, and not in `alloc`. -/
theorem akarin_c7_queue_invariants :
    (∀ (b : Int) (now : Nat), (client_queue.init b now).WF) ∧
    (∀ (q : client_queue) (c : Int), (q.re_enable c).WF) ∧
    (∀ (q : client_queue) (c : Int) (now : Nat), q.WF → ((q.insert c now).2).WF) ∧
    (∀ (q : client_queue) (c : Int), (q.insert_checked c).1 = true →
      q.front ≤ c ∧ c ≤ q.front + 0x4000 ∧ c ∉ q.alloc) :=
  ⟨init_wf, re_enable_wf, insert_wf, insert_checked_accepts⟩

/-- C7, witness: the invariant theorem applied to the concrete queue created
with begin id 100 and to the concrete accepted insert of id 164. -/
theorem akarin_c7_queue_invariants_witness :
    ((client_queue.init 100 0).insert 164 0).2.WF ∧
    ((client_queue.init 100 0).front ≤ 164 ∧
      164 ≤ (client_queue.init 100 0).front + 0x4000 ∧
      (164 : Int) ∉ (client_queue.init 100 0).alloc) :=
  ⟨akarin_c7_queue_invariants.2.2.1 (client_queue.init 100 0) 164 0 (by decide),
   akarin_c7_queue_invariants.2.2.2 (client_queue.init 100 0) 164 (by decide)⟩

/-!  ## External primitives and the payload cipher

The cryptographic primitives live outside this source file
(`hashlib`/`hmac`, `shadowsocks.encrypt.Encryptor`, `openssl.rand_bytes`,
`base64`, `plain.get_head_size`, `random.randint`).
Modelled from the spec: HMAC-MD5 is an arbitrary 16-byte keyed digest;
AES-128-CBC on the single 16-byte auth-header block (zero IV, with the
Encryptor's internal key derivation folded in) is an arbitrary invertible
block map; ChaCha20 is a keystream XOR cipher whose keystream depends on
(key, iv, position); `rand_bytes` draws from an arbitrary entropy stream
indexed by a cursor; `get_head_size(buf, 30)` is an arbitrary header-size
value; `random.randint(0, 31)` is an arbitrary value `≤ 31`. -/

structure Prims where
  hmac : Bytes → Bytes → Bytes
  aes_cbc_enc : Bytes → Bytes → Bytes
  aes_cbc_dec : Bytes → Bytes → Bytes
  chacha_ks : Bytes → Bytes → Nat → Nat
  b64 : Bytes → Bytes
  rand_byte : Nat → Nat
  head_size : Nat
  rand31 : Nat

/-- The well-formedness facts the round-trip arguments need from the
primitives: HMAC-MD5 digests are 16 bytes of bytes, the AES block map is
invertible and produces 16-byte blocks, and the sampled handshake values
stay in their documented ranges. -/
def Prims.Good (p : Prims) : Prop :=
  (∀ k m, (p.hmac k m).length = 16) ∧
  (∀ k m i, (p.hmac k m).getD i 0 < 256) ∧
  (∀ pw b, b.length = 16 → p.aes_cbc_dec pw (p.aes_cbc_enc pw b) = b) ∧
  (∀ pw b, b.length = 16 → (p.aes_cbc_enc pw b).length = 16) ∧
  p.rand31 ≤ 31 ∧ p.head_size ≤ 1000

/-- `openssl.rand_bytes(n)` at entropy cursor `pos`. -/
def rand_bytes (p : Prims) (pos n : Nat) : Bytes :=
  (List.range n).map (fun i => p.rand_byte (pos + i))

/-- XOR a byte list against a keystream starting at stream position `pos`. -/
def xor_stream (f : Nat → Nat) : Nat → Bytes → Bytes
  | _, [] => []
  | pos, b :: t => (b ^^^ f pos) :: xor_stream f (pos + 1) t

/-- The per-connection `encrypt.Encryptor` in ChaCha20 mode, as used by
auth_akarin: the encipher IV is fixed at construction (and never emitted on
the wire — the source suppresses it with an empty first `encrypt`), and the
decipher IV is taken from the first 8 bytes fed to `decrypt`. -/
structure Encryptor where
  key : Bytes
  enc_iv : Bytes
  dec_iv : Option Bytes
  enc_pos : Nat
  dec_pos : Nat
deriving DecidableEq

/-- `Encryptor.encrypt(buf)`. -/
def Encryptor.encrypt (e : Encryptor) (p : Prims) (buf : Bytes) : Bytes × Encryptor :=
  (xor_stream (p.chacha_ks e.key e.enc_iv) e.enc_pos buf,
   { e with enc_pos := e.enc_pos + buf.length })

/-- `Encryptor.decrypt(buf)`: the first call consumes the 8-byte decipher
IV from the front of `buf`. -/
def Encryptor.decrypt (e : Encryptor) (p : Prims) (buf : Bytes) : Bytes × Encryptor :=
  match e.dec_iv with
  | none =>
    let iv := buf.take 8
    let rest := buf.drop 8
    (xor_stream (p.chacha_ks e.key iv) 0 rest,
     { e with dec_iv := some iv, dec_pos := rest.length })
  | some iv =>
    (xor_stream (p.chacha_ks e.key iv) e.dec_pos buf,
     { e with dec_pos := e.dec_pos + buf.length })

/-!  ## The session: `auth_akarin_rand` -/

/-- The fields of `server_info` that `auth_akarin_rand` reads or writes.
`param_uid` is the pre-parsed `"uid:key"` protocol parameter of the client
(`none` when absent or unparsable); `users` is the server-side uid → key
table. -/
structure server_info_t where
  key : Bytes
  iv : Bytes
  recv_iv : Bytes
  overhead : Nat
  tcp_mss : Nat
  users : List (Bytes × Bytes)
  param_uid : Option (Nat × Bytes)
deriving DecidableEq

/-- `b"auth_akarin_rand"`, the protocol salt. -/
def akarin_salt : Bytes :=
  [97, 117, 116, 104, 95, 97, 107, 97, 114, 105, 110, 95, 114, 97, 110, 100]

/-- `b'E' * 2048`, the poison response. -/
def poison_E : Bytes := List.replicate 2048 69

/-- `common.int32` (not part of this source file).
Modelled from the spec: reduce to 32 bits and reinterpret as a signed
two's-complement value. -/
def int32 (x : Int) : Int :=
  let y := x % 4294967296
  if y ≥ 2147483648 then y - 4294967296 else y

/-- `self.max_time_dif = 60 * 60 * 24`. -/
def max_time_dif : Int := 60 * 60 * 24

/-- The mutable state of one `auth_akarin_rand` session (client or server
role), including its view of `server_info` and an entropy cursor `rnd_pos`
for `rand_bytes`. -/
structure auth_akarin_state where
  si : server_info_t
  raw_trans : Bool
  has_sent_header : Bool
  has_recv_header : Bool
  recv_buf : Bytes
  pack_id : Nat
  recv_id : Nat
  user_key : Option Bytes
  user_id : Option Bytes
  user_id_num : Nat
  client_id : Nat
  connection_id : Nat
  last_client_hash : Bytes
  last_server_hash : Bytes
  random_client : xorshift128plus
  random_server : xorshift128plus
  encryptor : Encryptor
  send_tcp_mss : Nat
  recv_tcp_mss : Nat
  new_send_tcp_mss : Nat
  send_back_cmd : List Nat
  unit_len : Nat
  overhead : Nat
  client_over_head : Nat
  rnd_pos : Nat
deriving DecidableEq

/-- `auth_akarin_rand.__init__` (with the given `server_info`). -/
def auth_akarin_init (si : server_info_t) : auth_akarin_state :=
  { si := si, raw_trans := false, has_sent_header := false,
    has_recv_header := false, recv_buf := [], pack_id := 1, recv_id := 1,
    user_key := none, user_id := none, user_id_num := 0, client_id := 0,
    connection_id := 0, last_client_hash := [], last_server_hash := [],
    random_client := ⟨0, 0⟩, random_server := ⟨0, 0⟩,
    encryptor := ⟨[], [], none, 0, 0⟩, send_tcp_mss := 2000,
    recv_tcp_mss := 2000, new_send_tcp_mss := 2000, send_back_cmd := [],
    unit_len := 2800, overhead := 4, client_over_head := 4, rnd_pos := 0 }

/-- The `user_key` after assignment (`self.user_key` is Python `None`
before the handshake sets it). -/
def auth_akarin_state.uk (s : auth_akarin_state) : Bytes := s.user_key.getD []

/-- `auth_akarin_rand.get_overhead(direction)` (source lines 278–279). -/
def auth_akarin_state.get_overhead (s : auth_akarin_state) (direction : Bool) : Nat :=
  let _ := direction
  s.overhead

/-- `auth_base.not_match_return(buf)` (source lines 124–129): set the sticky
`raw_trans`, zero the reported overhead, and poison the reply.  For
`auth_akarin_rand`, `self.method == self.no_compatible_method` always holds,
so the 2048-byte `'E'` branch is always taken. -/
def auth_akarin_state.not_match_return (s : auth_akarin_state) (buf : Bytes) :
    (Bytes × Bool) × auth_akarin_state :=
  let _ := buf
  (((poison_E, false) : Bytes × Bool), { s with raw_trans := true, overhead := 0 })

/-- `auth_akarin_rand.send_rnd_data_len(buf_size, last_hash, random)`
(source lines 300–313). -/
def auth_akarin_state.send_rnd_data_len (s : auth_akarin_state) (buf_size : Nat)
    (last_hash : Bytes) (r : xorshift128plus) : Nat × xorshift128plus :=
  if buf_size + s.si.overhead > s.send_tcp_mss then
    let n := (xorshift128plus.init_from_bin_len last_hash buf_size).next
    (n.1 % 521, n.2)
  else if buf_size ≥ 1440 ∨ buf_size + s.si.overhead = s.send_tcp_mss then (0, r)
  else
    let r := xorshift128plus.init_from_bin_len last_hash buf_size
    if buf_size > 1300 then
      let n := r.next
      (n.1 % 31, n.2)
    else if buf_size > 900 then
      let n := r.next
      (n.1 % 127, n.2)
    else if buf_size > 400 then
      let n := r.next
      (n.1 % 521, n.2)
    else
      let n := r.next
      (n.1 % (s.send_tcp_mss - buf_size - s.si.overhead), n.2)

/-- `auth_akarin_rand.recv_rnd_data_len(buf_size, last_hash, random)`
(source lines 315–328).  Note the second branch compares against
`send_tcp_mss`, not `recv_tcp_mss`. -/
def auth_akarin_state.recv_rnd_data_len (s : auth_akarin_state) (buf_size : Nat)
    (last_hash : Bytes) (r : xorshift128plus) : Nat × xorshift128plus :=
  if buf_size + s.si.overhead > s.recv_tcp_mss then
    let n := (xorshift128plus.init_from_bin_len last_hash buf_size).next
    (n.1 % 521, n.2)
  else if buf_size ≥ 1440 ∨ buf_size + s.si.overhead = s.send_tcp_mss then (0, r)
  else
    let r := xorshift128plus.init_from_bin_len last_hash buf_size
    if buf_size > 1300 then
      let n := r.next
      (n.1 % 31, n.2)
    else if buf_size > 900 then
      let n := r.next
      (n.1 % 127, n.2)
    else if buf_size > 400 then
      let n := r.next
      (n.1 % 521, n.2)
    else
      let n := r.next
      (n.1 % (s.recv_tcp_mss - buf_size - s.si.overhead), n.2)

/-- `auth_akarin_rand.udp_rnd_data_len(last_hash, random)`
(source lines 330–332). -/
def udp_rnd_data_len (last_hash : Bytes) (r : xorshift128plus) :
    Nat × xorshift128plus :=
  let _ := r
  let n := (xorshift128plus.init_from_bin last_hash).next
  (n.1 % 127, n.2)

/-- `auth_akarin_rand.rnd_data(buf_size, buf, last_hash, random)`
(source lines 334–345): draw the padding length via `send_rnd_data_len`,
then append that many entropy bytes.  Returns the padded data, the updated
PRNG, and the advanced entropy cursor. -/
def auth_akarin_state.rnd_data (s : auth_akarin_state) (p : Prims) (buf_size : Nat)
    (buf last_hash : Bytes) (r : xorshift128plus) :
    Bytes × xorshift128plus × Nat :=
  let rl := s.send_rnd_data_len buf_size last_hash r
  let out :=
    if buf_size = 0 then rand_bytes p s.rnd_pos rl.1
    else if rl.1 > 0 then buf ++ rand_bytes p s.rnd_pos rl.1
    else buf
  (out, rl.2, s.rnd_pos + rl.1)

/-- `auth_akarin_rand.pack_client_data(buf)` (source lines 347–390). -/
def auth_akarin_state.pack_client_data (s : auth_akarin_state) (p : Prims)
    (buf : Bytes) : Bytes × auth_akarin_state :=
  let eb := s.encryptor.encrypt p buf
  let s := { s with encryptor := eb.2 }
  let step :=
    if s.send_back_cmd ≠ [] then
      let cmd_len := 2
      let s := { s with send_tcp_mss := s.recv_tcp_mss }
      let rd := s.rnd_data p (eb.1.length + cmd_len) eb.1 s.last_client_hash
        s.random_client
      let s := { s with random_client := rd.2.1, rnd_pos := rd.2.2 }
      let data := packH (eb.1.length ^^^ unpackH ((s.last_client_hash.drop 12).take 2))
        ++ rd.1
      let data := packH (0xff00 ^^^ unpackH (s.last_client_hash.drop 14)) ++ data
      (data, s)
    else
      let rd := s.rnd_data p eb.1.length eb.1 s.last_client_hash s.random_client
      let s := { s with random_client := rd.2.1, rnd_pos := rd.2.2 }
      let data := packH (eb.1.length ^^^ unpackH (s.last_client_hash.drop 14)) ++ rd.1
      (data, s)
  let data := step.1
  let s := step.2
  let mac_key := s.uk ++ packI s.pack_id
  let h := p.hmac mac_key data
  let data := data ++ h.take 2
  (data, { s with last_client_hash := h, pack_id := (s.pack_id + 1) % 4294967296 })

/-- `auth_akarin_rand.pack_server_data(buf)` (source lines 392–424). -/
def auth_akarin_state.pack_server_data (s : auth_akarin_state) (p : Prims)
    (buf : Bytes) : Bytes × auth_akarin_state :=
  let eb := s.encryptor.encrypt p buf
  let s := { s with encryptor := eb.2 }
  let rd := s.rnd_data p eb.1.length eb.1 s.last_server_hash s.random_server
  let s := { s with random_server := rd.2.1, rnd_pos := rd.2.2 }
  let mac_key := s.uk ++ packI s.pack_id
  let data := packH (eb.1.length ^^^ unpackH (s.last_server_hash.drop 14)) ++ rd.1
  let h := p.hmac mac_key data
  let data := data ++ h.take 2
  let s := { s with last_server_hash := h }
  let s := if s.pack_id = 1 then { s with send_tcp_mss := s.new_send_tcp_mss } else s
  (data, { s with pack_id := (s.pack_id + 1) % 4294967296 })

/-- `auth_akarin_rand.auth_data()` (source lines 554–572), over the client's
own `server_info.data` counters; `utc_now` is `time.time()`. -/
def auth_data (p : Prims) (s : auth_akarin_state) (d : obfs_auth_akarin_data)
    (utc_now : Nat) : Bytes × auth_akarin_state × obfs_auth_akarin_data :=
  let utc := utc_now % 4294967296
  let d := if d.connection_id > 0xFF000000 then { d with local_client_id := [] } else d
  let sd :=
    if d.local_client_id = [] then
      let lcid := rand_bytes p s.rnd_pos 4
      let cid4 := rand_bytes p (s.rnd_pos + 4) 4
      ({ s with rnd_pos := s.rnd_pos + 8 },
       { d with local_client_id := lcid, connection_id := unpackI cid4 &&& 0xFFFFFF })
    else (s, d)
  let s := sd.1
  let d := { sd.2 with connection_id := sd.2.connection_id + 1 }
  (packI utc ++ d.local_client_id ++ packI d.connection_id, s, d)

/-- The uid/user-key selection in `pack_auth_data` (source lines 507–520):
use the parsed `uid:key` protocol parameter when present, else 4 random
bytes for the uid; a still-unset `user_key` falls back to the server key. -/
def auth_akarin_state.pick_uid (s : auth_akarin_state) (p : Prims) :
    Bytes × auth_akarin_state :=
  let us :=
    match s.si.param_uid with
    | some uk => (packI uk.1, { s with user_key := some uk.2 })
    | none =>
      (rand_bytes p s.rnd_pos 4, { s with rnd_pos := s.rnd_pos + 4 })
  let s := us.2
  (us.1, if s.user_key = none then { s with user_key := some s.si.key } else s)

/-- The header-building part of `auth_akarin_rand.pack_auth_data`
(source lines 495–551): MSS draw, check head, uid masking, AES-CBC
encrypted auth block, trailing verifier, and construction of the ChaCha20
connection encryptor. -/
def auth_akarin_state.pack_auth_header (s : auth_akarin_state) (p : Prims)
    (ad : Bytes) : Bytes × auth_akarin_state :=
  let mss2 := rand_bytes p s.rnd_pos 2
  let s := { s with rnd_pos := s.rnd_pos + 2 }
  let s := { s with send_tcp_mss := (256 * mss2.getD 0 0 + mss2.getD 1 0) % 1024 + 400 }
  let data := ad ++ (packH s.si.overhead ++ packH s.send_tcp_mss)
  let mac_key := s.si.iv ++ s.si.key
  let ch4 := rand_bytes p s.rnd_pos 4
  let s := { s with rnd_pos := s.rnd_pos + 4 }
  let s := { s with last_client_hash := p.hmac mac_key ch4 }
  let check_head := ch4 ++ s.last_client_hash.take 8
  let us := s.pick_uid p
  let uidB := us.1
  let s := us.2
  let uidM := packI (unpackI uidB ^^^ unpackI ((s.last_client_hash.drop 8).take 4))
  let data := uidM ++ p.aes_cbc_enc (p.b64 s.uk ++ akarin_salt) data
  let s := { s with last_server_hash := p.hmac s.uk data }
  let data := check_head ++ data ++ s.last_server_hash.take 4
  let e0 : Encryptor :=
    ⟨p.b64 s.uk ++ p.b64 s.last_client_hash, s.last_client_hash.take 8, none, 0, 0⟩
  let e1 := (e0.decrypt p (s.last_server_hash.take 8)).2
  (data, { s with encryptor := e1 })

/-- `auth_akarin_rand.pack_auth_data(auth_data, buf)` (source lines 426–552):
the header followed by the first packed client-data packet. -/
def auth_akarin_state.pack_auth_data (s : auth_akarin_state) (p : Prims)
    (ad buf : Bytes) : Bytes × auth_akarin_state :=
  let hd := s.pack_auth_header p ad
  let pk := hd.2.pack_client_data p buf
  (hd.1 ++ pk.1, pk.2)

/-- The `while len(buf) > self.unit_len` fragmentation loop shared by
`client_pre_encrypt` (source lines 598–601), with explicit fuel. -/
def auth_akarin_state.client_chunks (s : auth_akarin_state) (p : Prims)
    (fuel : Nat) (buf : Bytes) : Bytes × auth_akarin_state :=
  match fuel with
  | 0 => ([], s)
  | fuel + 1 =>
    if buf.length > s.unit_len then
      let d1 := s.pack_client_data p (buf.take s.unit_len)
      let d2 := d1.2.client_chunks p fuel (buf.drop s.unit_len)
      (d1.1 ++ d2.1, d2.2)
    else s.pack_client_data p buf

/-- `auth_akarin_rand.client_pre_encrypt(buf)` (source lines 578–602).
Note: this method does NOT consult `raw_trans`. -/
def auth_akarin_state.client_pre_encrypt (s : auth_akarin_state) (p : Prims)
    (d : obfs_auth_akarin_data) (buf : Bytes) (utc_now : Nat) :
    Bytes × auth_akarin_state × obfs_auth_akarin_data :=
  if s.has_sent_header then
    let r := s.client_chunks p (buf.length + 1) buf
    (r.1, r.2, d)
  else
    let datalen := min buf.length (p.rand31 + p.head_size)
    let adr := auth_data p s d utc_now
    let hdr := adr.2.1.pack_auth_data p adr.1 (buf.take datalen)
    let s1 := { hdr.2 with has_sent_header := true }
    let rest := buf.drop datalen
    let r := s1.client_chunks p (rest.length + 1) rest
    (hdr.1 ++ r.1, r.2, adr.2.2)

/-- The outcome of a post-decrypt call that can raise. -/
inductive DecodeRes where
  | ok (out : Bytes)
  | raise
deriving DecidableEq

/-- The `while len(self.recv_buf) > 4` loop of
`auth_akarin_rand.client_post_decrypt` (source lines 609–641), with explicit
fuel (each completed iteration consumes at least 4 buffered bytes). -/
def auth_akarin_state.client_post_decrypt_loop (s : auth_akarin_state) (p : Prims)
    (fuel : Nat) (out : Bytes) : DecodeRes × auth_akarin_state :=
  match fuel with
  | 0 => (.ok out, s)
  | fuel + 1 =>
    if s.recv_buf.length > 4 then
      let mac_key := s.uk ++ packI s.recv_id
      let data_len := unpackH (s.recv_buf.take 2) ^^^
        unpackH ((s.last_server_hash.drop 14).take 2)
      let rl := s.recv_rnd_data_len data_len s.last_server_hash s.random_server
      let s := { s with random_server := rl.2 }
      let length := data_len + rl.1
      if length ≥ 4096 then (.raise, { s with raw_trans := true, recv_buf := [] })
      else if length + 4 > s.recv_buf.length then (.ok out, s)
      else
        let server_hash := p.hmac mac_key (s.recv_buf.take (length + 2))
        if server_hash.take 2 ≠ (s.recv_buf.drop (length + 2)).take 2 then
          (.raise, { s with raw_trans := true, recv_buf := [] })
        else
          let de := s.encryptor.decrypt p ((s.recv_buf.drop 2).take data_len)
          let s := { s with encryptor := de.2, last_server_hash := server_hash }
          let out := out ++ de.1
          let os :=
            if s.recv_id = 1 then
              let m := unpackH (out.take 2)
              (out.drop 2,
               { s with si := { s.si with tcp_mss := m }, recv_tcp_mss := m,
                        send_back_cmd := s.send_back_cmd ++ [0xff00] })
            else (out, s)
          let out := os.1
          let s := os.2
          let s := { s with recv_id := (s.recv_id + 1) % 4294967296,
                            recv_buf := s.recv_buf.drop (length + 4) }
          s.client_post_decrypt_loop p fuel out
    else (.ok out, s)

/-- `auth_akarin_rand.client_post_decrypt(buf)` (source lines 604–643). -/
def auth_akarin_state.client_post_decrypt (s : auth_akarin_state) (p : Prims)
    (buf : Bytes) : DecodeRes × auth_akarin_state :=
  if s.raw_trans then (.ok buf, s)
  else
    let s := { s with recv_buf := s.recv_buf ++ buf }
    s.client_post_decrypt_loop p (s.recv_buf.length + 1) []

/-- The `while len(buf) > self.unit_len` fragmentation loop of
`server_pre_encrypt` (source lines 655–658), with explicit fuel. -/
def auth_akarin_state.server_chunks (s : auth_akarin_state) (p : Prims)
    (fuel : Nat) (buf : Bytes) : Bytes × auth_akarin_state :=
  match fuel with
  | 0 => ([], s)
  | fuel + 1 =>
    if buf.length > s.unit_len then
      let d1 := s.pack_server_data p (buf.take s.unit_len)
      let d2 := d1.2.server_chunks p fuel (buf.drop s.unit_len)
      (d1.1 ++ d2.1, d2.2)
    else s.pack_server_data p buf

/-- `auth_akarin_rand.server_pre_encrypt(buf)` (source lines 645–659). -/
def auth_akarin_state.server_pre_encrypt (s : auth_akarin_state) (p : Prims)
    (buf : Bytes) : Bytes × auth_akarin_state :=
  if s.raw_trans then (buf, s)
  else
    let bs :=
      if s.pack_id = 1 then
        let tcp_mss := if s.si.tcp_mss < 1500 then s.si.tcp_mss else 1500
        (packH tcp_mss ++ buf,
         { s with si := { s.si with tcp_mss := tcp_mss },
                  unit_len := tcp_mss - s.client_over_head,
                  new_send_tcp_mss := tcp_mss })
      else (buf, s)
    bs.2.server_chunks p (bs.1.length + 1) bs.1

/-- The outcome of `server_post_decrypt`: a `(bytes, sendback)` pair or a
raised exception. -/
inductive ServerRes where
  | ok (out : Bytes) (sendback : Bool)
  | raise
deriving DecidableEq

/-- The full result of a `server_post_decrypt` call. -/
abbrev ServerOut := ServerRes × auth_akarin_state × obfs_auth_akarin_data

/-- The shared failure tail of the post-handshake server loop
(source lines 753–757, 763–767, 779–782): with `raw_trans` already set and
the buffer already cleared, poison on the first packet and raise afterwards. -/
def auth_akarin_state.server_fail (s : auth_akarin_state)
    (d : obfs_auth_akarin_data) : ServerOut :=
  if s.recv_id = 1 then (.ok poison_E false, s, d) else (.raise, s, d)

/-- Result of the `while data_len >= 0xff00` command-prefix loop. -/
inductive CmdRes where
  | ok (rb : Bytes) (data_len cmd_len : Nat) (s : auth_akarin_state)
  | fail (s : auth_akarin_state)

/-- The `while data_len >= 0xff00` loop of `server_post_decrypt`
(source lines 743–757), with explicit fuel (each command consumes two bytes
of the local buffer).  `fail` carries the state with `raw_trans` set and
`recv_buf` cleared. -/
def auth_akarin_state.server_cmd_loop (s : auth_akarin_state) (fuel : Nat)
    (rb : Bytes) (data_len cmd_len : Nat) : CmdRes :=
  match fuel with
  | 0 => .ok rb data_len cmd_len s
  | fuel + 1 =>
    if data_len ≥ 0xff00 then
      if data_len = 0xff00 then
        let s := { s with recv_tcp_mss := s.send_tcp_mss }
        let rb := rb.drop 2
        let dl := unpackH (rb.take 2) ^^^ unpackH ((s.last_client_hash.drop 12).take 2)
        s.server_cmd_loop fuel rb dl (cmd_len + 2)
      else .fail { s with raw_trans := true, recv_buf := [] }
    else .ok rb data_len cmd_len s

/-- The return tail of `server_post_decrypt` (source lines 794–796): touch
the replay-guard entry when any plaintext was produced. -/
def auth_akarin_state.server_post_finish (s : auth_akarin_state)
    (d : obfs_auth_akarin_data) (out : Bytes) (sendback : Bool) (now : Nat) :
    ServerOut :=
  let d := if out ≠ [] then d.update s.user_id s.client_id now else d
  (.ok out sendback, s, d)

/-- The `while len(self.recv_buf) > 4` loop of `server_post_decrypt`
(source lines 738–792), with explicit fuel (each completed iteration
consumes at least four buffered bytes). -/
def auth_akarin_state.server_post_decrypt_loop (s : auth_akarin_state) (p : Prims)
    (fuel : Nat) (d : obfs_auth_akarin_data) (out : Bytes) (sendback : Bool)
    (now : Nat) : ServerOut :=
  match fuel with
  | 0 => s.server_post_finish d out sendback now
  | fuel + 1 =>
    if s.recv_buf.length > 4 then
      let mac_key := s.uk ++ packI s.recv_id
      let dl0 := unpackH (s.recv_buf.take 2) ^^^
        unpackH ((s.last_client_hash.drop 14).take 2)
      match s.server_cmd_loop (s.recv_buf.length + 1) s.recv_buf dl0 0 with
      | .fail s' => s'.server_fail d
      | .ok rb data_len cmd_len s =>
        let rl := s.recv_rnd_data_len (data_len + cmd_len) s.last_client_hash
          s.random_client
        let s := { s with random_client := rl.2 }
        let length := data_len + rl.1
        if length ≥ 4096 then
          ({ s with raw_trans := true, recv_buf := [] }).server_fail d
        else if length + 4 > rb.length then s.server_post_finish d out sendback now
        else
          let client_hash := p.hmac mac_key (s.recv_buf.take (length + cmd_len + 2))
          if client_hash.take 2 ≠ (s.recv_buf.drop (length + cmd_len + 2)).take 2 then
            ({ s with raw_trans := true, recv_buf := [] }).server_fail d
          else
            let s := { s with recv_id := (s.recv_id + 1) % 4294967296 }
            let de := s.encryptor.decrypt p ((rb.drop 2).take data_len)
            let s := { s with encryptor := de.2, last_client_hash := client_hash,
                              recv_buf := rb.drop (length + 4) }
            let out := out ++ de.1
            let sendback := if data_len = 0 then true else sendback
            s.server_post_decrypt_loop p fuel d out sendback now
    else s.server_post_finish d out sendback now

/-- The uid lookup of the server handshake (source lines 680–692). -/
def auth_akarin_state.server_select_user (s : auth_akarin_state) (uid_num : Nat) :
    auth_akarin_state :=
  let s := { s with user_id_num := uid_num }
  let uidB := packI uid_num
  match alist_get s.si.users uidB with
  | some k => { s with user_id := some uidB, user_key := some k }
  | none =>
    let s := { s with user_id_num := 0 }
    if s.si.users = [] then { s with user_key := some s.si.key }
    else { s with user_key := some s.si.recv_iv }

/-- The handshake block of `server_post_decrypt` (source lines 668–736):
either an early return (`inl`) or (`inr`) the state and replay-guard data
ready for the data-packet loop (with `sendback = true`). -/
def auth_akarin_state.server_handshake (s : auth_akarin_state) (p : Prims)
    (d : obfs_auth_akarin_data) (now : Nat) :
    ServerOut ⊕ (auth_akarin_state × obfs_auth_akarin_data) :=
  let n := s.recv_buf.length
  let mac_key := s.si.recv_iv ++ s.si.key
  let md5data := p.hmac mac_key (s.recv_buf.take 4)
  if (n ≥ 12 ∨ n = 7 ∨ n = 8) ∧
      md5data.take (min n 12 - 4) ≠ (s.recv_buf.drop 4).take (min n 12 - 4) then
    let r := s.not_match_return s.recv_buf
    .inl (.ok r.1.1 r.1.2, r.2, d)
  else if n < 12 + 24 then .inl (.ok [] false, s, d)
  else
    let s := { s with last_client_hash := md5data }
    let uid_num := unpackI ((s.recv_buf.drop 12).take 4) ^^^
      unpackI ((md5data.drop 8).take 4)
    let s := s.server_select_user uid_num
    let md5data2 := p.hmac s.uk ((s.recv_buf.drop 12).take 20)
    if md5data2.take 4 ≠ (s.recv_buf.drop 32).take 4 then
      let r := s.not_match_return s.recv_buf
      .inl (.ok r.1.1 r.1.2, r.2, d)
    else
      let s := { s with last_server_hash := md5data2 }
      let head := p.aes_cbc_dec (p.b64 s.uk ++ akarin_salt) ((s.recv_buf.drop 16).take 16)
      let s := { s with client_over_head := unpackH ((head.drop 12).take 2) }
      let m := unpackH ((head.drop 14).take 2)
      let s := { s with recv_tcp_mss := m, send_tcp_mss := m }
      let utc_time := unpackI (head.take 4)
      let client_id := unpackI ((head.drop 4).take 4)
      let connection_id := unpackI ((head.drop 8).take 4)
      let time_dif := int32 ((utc_time : Int) - ((now : Int) % 4294967296))
      if time_dif < -max_time_dif ∨ time_dif > max_time_dif then
        let r := s.not_match_return s.recv_buf
        .inl (.ok r.1.1 r.1.2, r.2, d)
      else
        let ins := d.insert s.user_id client_id (connection_id : Int) now
        if ins.1 then
          let s := { s with has_recv_header := true, client_id := client_id,
                            connection_id := connection_id }
          let e0 : Encryptor :=
            ⟨p.b64 s.uk ++ p.b64 s.last_client_hash, s.last_server_hash.take 8,
             none, 0, 0⟩
          let e1 := (e0.decrypt p (s.last_client_hash.take 8)).2
          let s := { s with encryptor := e1, recv_buf := s.recv_buf.drop 36 }
          .inr (s, ins.2)
        else
          let r := s.not_match_return s.recv_buf
          .inl (.ok r.1.1 r.1.2, r.2, ins.2)

/-- `auth_akarin_rand.server_post_decrypt(buf)` (source lines 661–796). -/
def auth_akarin_state.server_post_decrypt (s : auth_akarin_state) (p : Prims)
    (d : obfs_auth_akarin_data) (buf : Bytes) (now : Nat) : ServerOut :=
  if s.raw_trans then (.ok buf false, s, d)
  else
    let s := { s with recv_buf := s.recv_buf ++ buf }
    if ¬ s.has_recv_header then
      match s.server_handshake p d now with
      | .inl r => r
      | .inr sd =>
        sd.1.server_post_decrypt_loop p (sd.1.recv_buf.length + 1) sd.2 [] true now
    else
      s.server_post_decrypt_loop p (s.recv_buf.length + 1) d [] false now

/-- The outcome of `client_udp_post_decrypt`: the source returns the pair
`(b'', None)` on failure but a bare byte string on success, so the result
type is a sum of the two shapes. -/
inductive UdpRes where
  | pair (out : Bytes) (uid : Option Bytes)
  | bare (out : Bytes)
deriving DecidableEq

/-- `auth_akarin_rand.client_udp_post_decrypt(buf)` (source lines 823–834). -/
def auth_akarin_state.client_udp_post_decrypt (s : auth_akarin_state) (p : Prims)
    (buf : Bytes) : UdpRes × auth_akarin_state :=
  if buf.length ≤ 8 then (.pair [] none, s)
  else if (p.hmac s.uk (buf.take (buf.length - 1))).take 1 ≠ buf.drop (buf.length - 1)
  then (.pair [] none, s)
  else
    let mac_key := s.si.key
    let md5data := p.hmac mac_key ((buf.drop (buf.length - 8)).take 7)
    let rl := udp_rnd_data_len md5data s.random_server
    let s := { s with random_server := rl.2 }
    let e0 : Encryptor := ⟨p.b64 s.uk ++ p.b64 md5data, [], none, 0, 0⟩
    let e1 := (e0.decrypt p (mac_key.take 8)).2
    let de := e1.decrypt p (buf.take (buf.length - 8 - rl.1))
    (.bare de.1, s)

/-!  ## Concrete primitive instances for closed evaluations

A deterministic instantiation of the modelled primitives, used to run the
protocol on concrete inputs: the keyed digest mixes lengths and byte sums,
the auth-header block map is the identity, the keystream mixes key, iv and
position. -/

def fp : Prims :=
  { hmac := fun k m => (List.range 16).map (fun i =>
      (31 * k.length + 7 * m.length + 3 * k.sum + m.sum + 29 * i + 17 * i * i) % 256),
    aes_cbc_enc := fun _ b => b,
    aes_cbc_dec := fun _ b => b,
    chacha_ks := fun k iv pos => (k.sum + 5 * iv.sum + 11 * pos) % 256,
    b64 := fun b => b,
    rand_byte := fun _ => 0,
    head_size := 30,
    rand31 := 0 }

theorem getD_lt_256_of_forall (l : List Nat) (i : Nat) (h : ∀ x ∈ l, x < 256) :
    l.getD i 0 < 256 := by
  rcases Nat.lt_or_ge i l.length with hi | hi
  · rw [List.getD_eq_getElem l 0 hi]
    exact h _ (List.getElem_mem hi)
  · rw [List.getD_eq_default l 0 hi]
    norm_num

theorem fp_good : fp.Good := by
  refine ⟨fun k m => by simp [fp], fun k m i => ?_, fun pw b _ => rfl,
    fun pw b h => by simpa [fp] using h, by norm_num [fp], by norm_num [fp]⟩
  refine getD_lt_256_of_forall _ i (fun x hx => ?_)
  simp only [fp, List.mem_map] at hx
  obtain ⟨j, _, hj⟩ := hx
  omega

/-!  ## Claim C8: the receive-side padding computation -/

/-- The single PRNG draw both padding-length functions use after reseeding
with `init_from_bin_len(last_hash, buf_size)`. -/
def xs_draw (lh : Bytes) (B : Nat) : Nat :=
  (xorshift128plus.init_from_bin_len lh B).next.1

/-- C8 (amended): `recv_rnd_data_len` uses `recv_tcp_mss` in the first
(`> mss`) branch and in the terminal branch, but the zero branch compares
`buf_size + overhead` against `send_tcp_mss`, not `recv_tcp_mss`; the
middle `>1300 / >900 / >400` branches use fixed moduli. -/
theorem akarin_c8_recv_padding (s : auth_akarin_state) (B : Nat) (lh : Bytes)
    (r : xorshift128plus) :
    (B + s.si.overhead > s.recv_tcp_mss →
      (s.recv_rnd_data_len B lh r).1 = xs_draw lh B % 521) ∧
    (¬ B + s.si.overhead > s.recv_tcp_mss →
      (B ≥ 1440 ∨ B + s.si.overhead = s.send_tcp_mss) →
      (s.recv_rnd_data_len B lh r).1 = 0) ∧
    (¬ B + s.si.overhead > s.recv_tcp_mss →
      ¬ (B ≥ 1440 ∨ B + s.si.overhead = s.send_tcp_mss) →
      B > 1300 → (s.recv_rnd_data_len B lh r).1 = xs_draw lh B % 31) ∧
    (¬ B + s.si.overhead > s.recv_tcp_mss →
      ¬ (B ≥ 1440 ∨ B + s.si.overhead = s.send_tcp_mss) →
      ¬ B > 1300 → B > 900 →
      (s.recv_rnd_data_len B lh r).1 = xs_draw lh B % 127) ∧
    (¬ B + s.si.overhead > s.recv_tcp_mss →
      ¬ (B ≥ 1440 ∨ B + s.si.overhead = s.send_tcp_mss) →
      ¬ B > 1300 → ¬ B > 900 → B > 400 →
      (s.recv_rnd_data_len B lh r).1 = xs_draw lh B % 521) ∧
    (¬ B + s.si.overhead > s.recv_tcp_mss →
      ¬ (B ≥ 1440 ∨ B + s.si.overhead = s.send_tcp_mss) →
      ¬ B > 1300 → ¬ B > 900 → ¬ B > 400 →
      (s.recv_rnd_data_len B lh r).1 =
        xs_draw lh B % (s.recv_tcp_mss - B - s.si.overhead)) := by
  unfold auth_akarin_state.recv_rnd_data_len xs_draw
  refine ⟨fun h1 => by rw [if_pos h1],
    fun h1 h2 => by rw [if_neg h1, if_pos h2],
    fun h1 h2 h3 => by rw [if_neg h1, if_neg h2]; simp only [if_pos h3],
    fun h1 h2 h3 h4 => by rw [if_neg h1, if_neg h2]; simp only [if_neg h3, if_pos h4],
    fun h1 h2 h3 h4 h5 => by
      rw [if_neg h1, if_neg h2]; simp only [if_neg h3, if_neg h4, if_pos h5],
    fun h1 h2 h3 h4 h5 => by
      rw [if_neg h1, if_neg h2]; simp only [if_neg h3, if_neg h4, if_neg h5]⟩

/-- A session state whose receive and send MSS differ, exposing which MSS
the zero branch of `recv_rnd_data_len` reads. -/
def c8_si : server_info_t :=
  { key := [65], iv := [66], recv_iv := [66], overhead := 9,
    tcp_mss := 1440, users := [], param_uid := none }

def c8_state : auth_akarin_state :=
  { auth_akarin_init c8_si with recv_tcp_mss := 1000, send_tcp_mss := 2000 }

/-- C8, counterexample: with `recv_tcp_mss = 1000`, `send_tcp_mss = 2000`,
`overhead = 9` and `buf_size = 991`, we have `buf_size + overhead =
recv_tcp_mss`, so the claim demands 0; the code compares against
`send_tcp_mss`, falls through to the `> 900` branch, and returns 38. -/
theorem akarin_c8_counterexample :
    991 + c8_state.si.overhead = c8_state.recv_tcp_mss ∧
    ¬ 991 + c8_state.si.overhead > c8_state.recv_tcp_mss ∧
    (c8_state.recv_rnd_data_len 991 (List.replicate 16 0) ⟨0, 0⟩).1 = 38 ∧
    (38 : Nat) ≠ 0 := by
  refine ⟨by decide, by decide, by decide, by decide⟩

/-- C8, witness: the amended branch characterization applied at the
concrete counterexample state. -/
theorem akarin_c8_recv_padding_witness :
    (c8_state.recv_rnd_data_len 991 (List.replicate 16 0) ⟨0, 0⟩).1 =
      xs_draw (List.replicate 16 0) 991 % 127 :=
  (akarin_c8_recv_padding c8_state 991 (List.replicate 16 0) ⟨0, 0⟩).2.2.2.1
    (by decide) (by decide) (by decide) (by decide)

/-!  ## Claim C10: UDP post-decrypt result shapes -/

/-- A client session with a set user key, for the UDP scenario. -/
def c10_state : auth_akarin_state :=
  { auth_akarin_init c8_si with user_key := some [49, 49] }

/-- C10: `client_udp_post_decrypt` returns the pair `(b'', None)` when the
datagram is at most 8 bytes or its trailing byte fails the 1-byte HMAC tag,
leaving the state unchanged; on success it returns a bare byte string, a
different shape from the failure pair. -/
theorem akarin_c10_udp_result_shapes (s : auth_akarin_state) (p : Prims) (buf : Bytes) :
    (buf.length ≤ 8 → s.client_udp_post_decrypt p buf = (.pair [] none, s)) ∧
    (¬ (p.hmac s.uk (buf.take (buf.length - 1))).take 1 = buf.drop (buf.length - 1) →
      s.client_udp_post_decrypt p buf = (.pair [] none, s)) ∧
    (buf.length > 8 →
      (p.hmac s.uk (buf.take (buf.length - 1))).take 1 = buf.drop (buf.length - 1) →
      ∃ out, (s.client_udp_post_decrypt p buf).1 = .bare out) := by
  unfold auth_akarin_state.client_udp_post_decrypt
  refine ⟨fun h => by rw [if_pos h], fun h => ?_, fun h1 h2 => ?_⟩
  · by_cases h8 : buf.length ≤ 8
    · rw [if_pos h8]
    · rw [if_neg h8, if_pos h]
  · rw [if_neg (by omega), if_neg (not_not_intro h2)]
    exact ⟨_, rfl⟩

/-- C10, witness: the shape theorem applied to a concrete short datagram
and to a concrete datagram with a valid tag. -/
theorem akarin_c10_udp_result_shapes_witness :
    (c10_state.client_udp_post_decrypt fp [1, 2, 3] = (.pair [] none, c10_state)) ∧
    ∃ out, (c10_state.client_udp_post_decrypt fp
      ([1, 2, 3, 4, 5, 6, 7, 8, 9] ++ [208])).1 = .bare out :=
  ⟨(akarin_c10_udp_result_shapes c10_state fp [1, 2, 3]).1 (by decide),
   (akarin_c10_udp_result_shapes c10_state fp ([1, 2, 3, 4, 5, 6, 7, 8, 9] ++ [208])).2.2
     (by decide) (by decide)⟩

/-!  ## Preservation lemmas for the session operations -/

theorem pack_client_data_pres (s : auth_akarin_state) (p : Prims) (b : Bytes) :
    ((s.pack_client_data p b).2).raw_trans = s.raw_trans ∧
    ((s.pack_client_data p b).2).overhead = s.overhead := by
  unfold auth_akarin_state.pack_client_data
  by_cases h : s.send_back_cmd = [] <;> simp [h]

theorem pack_server_data_pres (s : auth_akarin_state) (p : Prims) (b : Bytes) :
    ((s.pack_server_data p b).2).raw_trans = s.raw_trans ∧
    ((s.pack_server_data p b).2).overhead = s.overhead := by
  unfold auth_akarin_state.pack_server_data
  by_cases h : s.pack_id = 1 <;> simp [h]

theorem client_chunks_pres (p : Prims) (fuel : Nat) (s : auth_akarin_state) (b : Bytes) :
    ((s.client_chunks p fuel b).2).raw_trans = s.raw_trans ∧
    ((s.client_chunks p fuel b).2).overhead = s.overhead := by
  induction fuel generalizing s b with
  | zero => exact ⟨rfl, rfl⟩
  | succ n ih =>
    rw [auth_akarin_state.client_chunks]
    by_cases h : b.length > s.unit_len
    · simp only [h, if_true, if_pos h]
      have h1 := pack_client_data_pres s p (b.take s.unit_len)
      have h2 := ih (s.pack_client_data p (b.take s.unit_len)).2 (b.drop s.unit_len)
      exact ⟨h2.1.trans h1.1, h2.2.trans h1.2⟩
    · simp only [h, if_false, if_neg h]
      exact pack_client_data_pres s p b

theorem server_chunks_pres (p : Prims) (fuel : Nat) (s : auth_akarin_state) (b : Bytes) :
    ((s.server_chunks p fuel b).2).raw_trans = s.raw_trans ∧
    ((s.server_chunks p fuel b).2).overhead = s.overhead := by
  induction fuel generalizing s b with
  | zero => exact ⟨rfl, rfl⟩
  | succ n ih =>
    rw [auth_akarin_state.server_chunks]
    by_cases h : b.length > s.unit_len
    · simp only [h, if_true, if_pos h]
      have h1 := pack_server_data_pres s p (b.take s.unit_len)
      have h2 := ih (s.pack_server_data p (b.take s.unit_len)).2 (b.drop s.unit_len)
      exact ⟨h2.1.trans h1.1, h2.2.trans h1.2⟩
    · simp only [h, if_false, if_neg h]
      exact pack_server_data_pres s p b

theorem pick_uid_pres (s : auth_akarin_state) (p : Prims) :
    ((s.pick_uid p).2).raw_trans = s.raw_trans ∧
    ((s.pick_uid p).2).overhead = s.overhead := by
  unfold auth_akarin_state.pick_uid
  cases h : s.si.param_uid
  · simp only [h]
    split <;> simp
  · simp only [h]
    split <;> simp

theorem pack_auth_header_pres (s : auth_akarin_state) (p : Prims) (ad : Bytes) :
    ((s.pack_auth_header p ad).2).raw_trans = s.raw_trans ∧
    ((s.pack_auth_header p ad).2).overhead = s.overhead := by
  unfold auth_akarin_state.pack_auth_header
  have h := pick_uid_pres { s with
    rnd_pos := s.rnd_pos + 2 + 4,
    send_tcp_mss :=
      (256 * (rand_bytes p s.rnd_pos 2).getD 0 0 + (rand_bytes p s.rnd_pos 2).getD 1 0) % 1024 + 400,
    last_client_hash := p.hmac (s.si.iv ++ s.si.key) (rand_bytes p (s.rnd_pos + 2) 4) } p
  simp only []
  constructor
  · exact h.1
  · exact h.2

theorem auth_data_pres (p : Prims) (s : auth_akarin_state) (d : obfs_auth_akarin_data)
    (utc : Nat) :
    ((auth_data p s d utc).2.1).raw_trans = s.raw_trans ∧
    ((auth_data p s d utc).2.1).overhead = s.overhead := by
  unfold auth_data
  by_cases h1 : d.connection_id > 0xFF000000
  · simp [h1]
  · by_cases h2 : d.local_client_id = []
    · simp [h1, h2]
    · simp [h1, h2]

theorem pack_auth_data_pres (s : auth_akarin_state) (p : Prims) (ad b : Bytes) :
    ((s.pack_auth_data p ad b).2).raw_trans = s.raw_trans ∧
    ((s.pack_auth_data p ad b).2).overhead = s.overhead := by
  unfold auth_akarin_state.pack_auth_data
  have h1 := pack_auth_header_pres s p ad
  have h2 := pack_client_data_pres (s.pack_auth_header p ad).2 p b
  exact ⟨h2.1.trans h1.1, h2.2.trans h1.2⟩

theorem client_pre_encrypt_pres (s : auth_akarin_state) (p : Prims)
    (d : obfs_auth_akarin_data) (b : Bytes) (utc : Nat) :
    ((s.client_pre_encrypt p d b utc).2.1).raw_trans = s.raw_trans ∧
    ((s.client_pre_encrypt p d b utc).2.1).overhead = s.overhead := by
  unfold auth_akarin_state.client_pre_encrypt
  by_cases h : s.has_sent_header
  · simp only [h, if_true]
    exact client_chunks_pres p (b.length + 1) s b
  · simp only [h, if_false, Bool.false_eq_true, reduceIte]
    have h1 := auth_data_pres p s d utc
    have h2 := pack_auth_data_pres (auth_data p s d utc).2.1 p (auth_data p s d utc).1
      (b.take (min b.length (p.rand31 + p.head_size)))
    set s2 := ((auth_data p s d utc).2.1.pack_auth_data p (auth_data p s d utc).1
      (b.take (min b.length (p.rand31 + p.head_size)))).2
    have h3 := client_chunks_pres p ((b.drop (min b.length (p.rand31 + p.head_size))).length + 1)
      { s2 with has_sent_header := true } (b.drop (min b.length (p.rand31 + p.head_size)))
    refine ⟨h3.1.trans ?_, h3.2.trans ?_⟩
    · show s2.raw_trans = s.raw_trans
      exact h2.1.trans h1.1
    · show s2.overhead = s.overhead
      exact h2.2.trans h1.2

theorem server_pre_encrypt_pres (s : auth_akarin_state) (p : Prims) (b : Bytes) :
    ((s.server_pre_encrypt p b).2).raw_trans = s.raw_trans ∧
    ((s.server_pre_encrypt p b).2).overhead = s.overhead := by
  unfold auth_akarin_state.server_pre_encrypt
  cases hr : s.raw_trans with
  | true => simp [hr]
  | false =>
    simp only [Bool.false_eq_true, reduceIte]
    by_cases h1 : s.pack_id = 1
    · simp only [h1, reduceIte]
      exact ⟨(server_chunks_pres p _ _ _).1, (server_chunks_pres p _ _ _).2⟩
    · simp only [h1, if_false, Bool.false_eq_true, reduceIte]
      exact ⟨(server_chunks_pres p _ _ _).1.trans hr, (server_chunks_pres p _ _ _).2⟩

theorem client_post_decrypt_loop_overhead (p : Prims) (fuel : Nat)
    (s : auth_akarin_state) (out : Bytes) :
    ((s.client_post_decrypt_loop p fuel out).2).overhead = s.overhead := by
  induction fuel generalizing s out with
  | zero => rfl
  | succ n ih =>
    rw [auth_akarin_state.client_post_decrypt_loop]
    by_cases hg : s.recv_buf.length > 4
    · simp only [hg, if_true, reduceIte]
      split
      · rfl
      split
      · rfl
      split
      · rfl
      · split
        · exact ih _ _
        · exact ih _ _
    · simp only [hg, if_false, Bool.false_eq_true, reduceIte]

theorem client_post_decrypt_overhead (s : auth_akarin_state) (p : Prims) (buf : Bytes) :
    ((s.client_post_decrypt p buf).2).overhead = s.overhead := by
  unfold auth_akarin_state.client_post_decrypt
  by_cases hr : s.raw_trans = true
  · rw [if_pos hr]
  · rw [if_neg hr]
    exact client_post_decrypt_loop_overhead p _ _ _

theorem server_cmd_loop_overhead (fuel : Nat) (s : auth_akarin_state)
    (rb : Bytes) (dl cl : Nat) :
    (∀ rb' dl' cl' s', s.server_cmd_loop fuel rb dl cl = .ok rb' dl' cl' s' →
      s'.overhead = s.overhead) ∧
    (∀ s', s.server_cmd_loop fuel rb dl cl = .fail s' → s'.overhead = s.overhead) := by
  induction fuel generalizing s rb dl cl with
  | zero =>
    constructor
    · intro rb' dl' cl' s' h
      rw [auth_akarin_state.server_cmd_loop] at h
      cases h
      rfl
    · intro s' h
      rw [auth_akarin_state.server_cmd_loop] at h
      cases h
  | succ n ih =>
    constructor
    · intro rb' dl' cl' s' h
      rw [auth_akarin_state.server_cmd_loop] at h
      by_cases h1 : dl ≥ 0xff00
      · rw [if_pos h1] at h
        by_cases h2 : dl = 0xff00
        · rw [if_pos h2] at h
          exact (ih { s with recv_tcp_mss := s.send_tcp_mss } (rb.drop 2) _ (cl + 2)).1
            _ _ _ _ h
        · rw [if_neg h2] at h
          cases h
      · rw [if_neg h1] at h
        cases h
        rfl
    · intro s' h
      rw [auth_akarin_state.server_cmd_loop] at h
      by_cases h1 : dl ≥ 0xff00
      · rw [if_pos h1] at h
        by_cases h2 : dl = 0xff00
        · rw [if_pos h2] at h
          exact (ih { s with recv_tcp_mss := s.send_tcp_mss } (rb.drop 2) _ (cl + 2)).2 _ h
        · rw [if_neg h2] at h
          cases h
          rfl
      · rw [if_neg h1] at h
        cases h

theorem server_fail_state (s : auth_akarin_state) (d : obfs_auth_akarin_data) :
    (s.server_fail d).2.1 = s := by
  unfold auth_akarin_state.server_fail
  split
  · rfl
  · rfl

theorem server_post_finish_state (s : auth_akarin_state) (d : obfs_auth_akarin_data)
    (out : Bytes) (sb : Bool) (now : Nat) :
    (s.server_post_finish d out sb now).2.1 = s := rfl

theorem server_post_decrypt_loop_overhead (p : Prims) (fuel : Nat)
    (s : auth_akarin_state) (d : obfs_auth_akarin_data) (out : Bytes) (sb : Bool)
    (now : Nat) :
    ((s.server_post_decrypt_loop p fuel d out sb now).2.1).overhead = s.overhead := by
  induction fuel generalizing s d out sb with
  | zero => rw [auth_akarin_state.server_post_decrypt_loop, server_post_finish_state]
  | succ n ih =>
    rw [auth_akarin_state.server_post_decrypt_loop]
    by_cases hg : s.recv_buf.length > 4
    · simp only [hg, if_true, reduceIte]
      split
      next s' hcl =>
        rw [server_fail_state]
        exact (server_cmd_loop_overhead _ _ _ _ _).2 _ hcl
      next rb dl cl s' hcl =>
        have hov : s'.overhead = s.overhead :=
          (server_cmd_loop_overhead _ _ _ _ _).1 _ _ _ _ hcl
        split
        · rw [server_fail_state]
          exact hov
        split
        · rw [server_post_finish_state]
          exact hov
        split
        · rw [server_fail_state]
          exact hov
        · refine (ih _ _ _ _).trans ?_
          exact hov
    · simp only [hg, if_false, Bool.false_eq_true, reduceIte]
      rw [server_post_finish_state]

theorem server_select_user_pres (s : auth_akarin_state) (u : Nat) :
    ((s.server_select_user u)).overhead = s.overhead ∧
    ((s.server_select_user u)).raw_trans = s.raw_trans := by
  unfold auth_akarin_state.server_select_user
  dsimp only
  split
  · exact ⟨rfl, rfl⟩
  · split
    · exact ⟨rfl, rfl⟩
    · exact ⟨rfl, rfl⟩

theorem server_handshake_overhead (s : auth_akarin_state) (p : Prims)
    (d : obfs_auth_akarin_data) (now : Nat) :
    (∀ r s' d', s.server_handshake p d now = .inl (r, s', d') →
      s'.overhead = s.overhead ∨ (s'.overhead = 0 ∧ s'.raw_trans = true)) ∧
    (∀ sd, s.server_handshake p d now = .inr sd → sd.1.overhead = s.overhead) := by
  unfold auth_akarin_state.server_handshake auth_akarin_state.not_match_return
  constructor
  · intro r s' d' h
    dsimp only at h
    split at h
    · cases h
      right
      exact ⟨rfl, rfl⟩
    split at h
    · cases h
      left
      rfl
    split at h
    · cases h
      right
      exact ⟨rfl, rfl⟩
    split at h
    · cases h
      right
      exact ⟨rfl, rfl⟩
    split at h
    · cases h
    · cases h
      right
      exact ⟨rfl, rfl⟩
  · intro sd h
    dsimp only at h
    split at h
    · cases h
    split at h
    · cases h
    split at h
    · cases h
    split at h
    · cases h
    split at h
    · cases h
      exact (server_select_user_pres _ _).1
    · cases h

theorem client_udp_post_decrypt_pres (s : auth_akarin_state) (p : Prims) (buf : Bytes) :
    ((s.client_udp_post_decrypt p buf).2).raw_trans = s.raw_trans ∧
    ((s.client_udp_post_decrypt p buf).2).overhead = s.overhead := by
  unfold auth_akarin_state.client_udp_post_decrypt
  split
  · exact ⟨rfl, rfl⟩
  split
  · exact ⟨rfl, rfl⟩
  · exact ⟨rfl, rfl⟩

theorem client_post_decrypt_raw_passthrough (s : auth_akarin_state) (p : Prims)
    (buf : Bytes) (h : s.raw_trans = true) :
    s.client_post_decrypt p buf = (.ok buf, s) := by
  unfold auth_akarin_state.client_post_decrypt
  rw [if_pos h]

theorem server_pre_encrypt_raw_passthrough (s : auth_akarin_state) (p : Prims)
    (buf : Bytes) (h : s.raw_trans = true) :
    s.server_pre_encrypt p buf = (buf, s) := by
  unfold auth_akarin_state.server_pre_encrypt
  rw [if_pos h]

theorem server_post_decrypt_raw_passthrough (s : auth_akarin_state) (p : Prims)
    (d : obfs_auth_akarin_data) (buf : Bytes) (now : Nat) (h : s.raw_trans = true) :
    s.server_post_decrypt p d buf now = (.ok buf false, s, d) := by
  unfold auth_akarin_state.server_post_decrypt
  rw [if_pos h]

theorem server_post_decrypt_overhead (s : auth_akarin_state) (p : Prims)
    (d : obfs_auth_akarin_data) (buf : Bytes) (now : Nat) :
    ((s.server_post_decrypt p d buf now).2.1).overhead = s.overhead ∨
    (((s.server_post_decrypt p d buf now).2.1).overhead = 0 ∧
      ((s.server_post_decrypt p d buf now).2.1).raw_trans = true) := by
  unfold auth_akarin_state.server_post_decrypt
  by_cases hr : s.raw_trans = true
  · rw [if_pos hr]
    left
    rfl
  · rw [if_neg hr]
    dsimp only
    by_cases hh : s.has_recv_header = true
    · rw [if_neg (not_not_intro hh)]
      left
      exact server_post_decrypt_loop_overhead p _
        { s with recv_buf := s.recv_buf ++ buf } d [] false now
    · rw [if_pos hh]
      split
      next r hhs =>
        obtain ⟨r1, s', d'⟩ := r
        rcases (server_handshake_overhead { s with recv_buf := s.recv_buf ++ buf }
            p d now).1 r1 s' d' hhs with h | h
        · left
          exact h
        · right
          exact h
      next sd hhs =>
        left
        refine (server_post_decrypt_loop_overhead p _ sd.1 sd.2 [] true now).trans ?_
        exact (server_handshake_overhead { s with recv_buf := s.recv_buf ++ buf }
          p d now).2 sd hhs

inductive SessionOp where
  | client_pre (buf : Bytes) (utc : Nat)
  | client_post (buf : Bytes)
  | server_pre (buf : Bytes)
  | server_post (buf : Bytes) (now : Nat)
  | client_udp_post (buf : Bytes)
  | not_match (buf : Bytes)
  | overhead_query (direction : Bool)

def SessionOp.apply (op : SessionOp) (p : Prims)
    (sd : auth_akarin_state × obfs_auth_akarin_data) :
    auth_akarin_state × obfs_auth_akarin_data :=
  match op with
  | .client_pre buf utc =>
    let r := sd.1.client_pre_encrypt p sd.2 buf utc
    (r.2.1, r.2.2)
  | .client_post buf => ((sd.1.client_post_decrypt p buf).2, sd.2)
  | .server_pre buf => ((sd.1.server_pre_encrypt p buf).2, sd.2)
  | .server_post buf now =>
    let r := sd.1.server_post_decrypt p sd.2 buf now
    (r.2.1, r.2.2)
  | .client_udp_post buf => ((sd.1.client_udp_post_decrypt p buf).2, sd.2)
  | .not_match buf => ((sd.1.not_match_return buf).2, sd.2)
  | .overhead_query dir =>
    let _ := sd.1.get_overhead dir
    sd

def apply_ops (p : Prims) (ops : List SessionOp)
    (sd : auth_akarin_state × obfs_auth_akarin_data) :
    auth_akarin_state × obfs_auth_akarin_data :=
  ops.foldl (fun sd op => op.apply p sd) sd

theorem op_raw_trans_monotone (op : SessionOp) (p : Prims)
    (sd : auth_akarin_state × obfs_auth_akarin_data) (h : sd.1.raw_trans = true) :
    (op.apply p sd).1.raw_trans = true := by
  cases op with
  | client_pre buf utc =>
    exact (client_pre_encrypt_pres sd.1 p sd.2 buf utc).1.trans h
  | client_post buf =>
    show ((sd.1.client_post_decrypt p buf).2).raw_trans = true
    rw [client_post_decrypt_raw_passthrough sd.1 p buf h]
    exact h
  | server_pre buf =>
    show ((sd.1.server_pre_encrypt p buf).2).raw_trans = true
    rw [server_pre_encrypt_raw_passthrough sd.1 p buf h]
    exact h
  | server_post buf now =>
    show ((sd.1.server_post_decrypt p sd.2 buf now).2.1).raw_trans = true
    rw [server_post_decrypt_raw_passthrough sd.1 p sd.2 buf now h]
    exact h
  | client_udp_post buf =>
    exact (client_udp_post_decrypt_pres sd.1 p buf).1.trans h
  | not_match buf => rfl
  | overhead_query dir => exact h

theorem apply_ops_raw_trans_monotone (p : Prims) (ops : List SessionOp)
    (sd : auth_akarin_state × obfs_auth_akarin_data) (h : sd.1.raw_trans = true) :
    (apply_ops p ops sd).1.raw_trans = true := by
  induction ops generalizing sd with
  | nil => exact h
  | cons op t ih => exact ih _ (op_raw_trans_monotone op p sd h)

theorem op_overhead (op : SessionOp) (p : Prims)
    (sd : auth_akarin_state × obfs_auth_akarin_data) :
    (op.apply p sd).1.overhead = sd.1.overhead ∨
    ((op.apply p sd).1.overhead = 0 ∧ (op.apply p sd).1.raw_trans = true) := by
  cases op with
  | client_pre buf utc => exact Or.inl (client_pre_encrypt_pres sd.1 p sd.2 buf utc).2
  | client_post buf => exact Or.inl (client_post_decrypt_overhead sd.1 p buf)
  | server_pre buf => exact Or.inl (server_pre_encrypt_pres sd.1 p buf).2
  | server_post buf now => exact server_post_decrypt_overhead sd.1 p sd.2 buf now
  | client_udp_post buf => exact Or.inl (client_udp_post_decrypt_pres sd.1 p buf).2
  | not_match buf => exact Or.inr ⟨rfl, rfl⟩
  | overhead_query dir => exact Or.inl rfl

/-!  ## Claims C9 (get_overhead) and C6 (raw_trans stickiness) -/

/-- A session with the sticky `raw_trans` bit already set. -/
def c6_state : auth_akarin_state := { auth_akarin_init c8_si with raw_trans := true }

/-- C9 (amended): `get_overhead(direction)` returns the session's `overhead`
field, which is 4 at construction; every modelled operation either leaves
the field unchanged or (on the server auth-failure path through
`not_match_return`) zeroes it while setting `raw_trans`. -/
theorem akarin_c9_overhead_amended :
    (∀ (s : auth_akarin_state) (dir : Bool), s.get_overhead dir = s.overhead) ∧
    (∀ si : server_info_t, (auth_akarin_init si).overhead = 4) ∧
    (∀ (op : SessionOp) (p : Prims) (sd : auth_akarin_state × obfs_auth_akarin_data),
      (op.apply p sd).1.overhead = sd.1.overhead ∨
      ((op.apply p sd).1.overhead = 0 ∧ (op.apply p sd).1.raw_trans = true)) :=
  ⟨fun _ _ => rfl, fun _ => rfl, op_overhead⟩

/-- C9, counterexample: after a server handshake whose 12-byte prefix fails
the HMAC check, `get_overhead` returns 0, not 4. -/
theorem akarin_c9_counterexample :
    ((auth_akarin_init c8_si).server_post_decrypt fp obfs_auth_akarin_data.init
        (List.replicate 12 1) 0).2.1.get_overhead true = 0 ∧ (0 : Nat) ≠ 4 := by
  constructor
  · decide
  · decide

/-- C6 (amended): once `raw_trans` is set it is never cleared by any later
modelled operation, and `client_post_decrypt`, `server_pre_encrypt`, and
`server_post_decrypt` all pass their input through with the state unchanged;
`client_pre_encrypt`, however, does not consult `raw_trans` and still packs
its input. -/
theorem akarin_c6_raw_trans_amended :
    (∀ (p : Prims) (ops : List SessionOp) (sd : auth_akarin_state × obfs_auth_akarin_data),
      sd.1.raw_trans = true → (apply_ops p ops sd).1.raw_trans = true) ∧
    (∀ (s : auth_akarin_state) (p : Prims) (buf : Bytes), s.raw_trans = true →
      s.client_post_decrypt p buf = (.ok buf, s)) ∧
    (∀ (s : auth_akarin_state) (p : Prims) (buf : Bytes), s.raw_trans = true →
      s.server_pre_encrypt p buf = (buf, s)) ∧
    (∀ (s : auth_akarin_state) (p : Prims) (d : obfs_auth_akarin_data) (buf : Bytes)
      (now : Nat), s.raw_trans = true →
      s.server_post_decrypt p d buf now = (.ok buf false, s, d)) :=
  ⟨apply_ops_raw_trans_monotone,
   fun s p buf h => client_post_decrypt_raw_passthrough s p buf h,
   fun s p buf h => server_pre_encrypt_raw_passthrough s p buf h,
   fun s p d buf now h => server_post_decrypt_raw_passthrough s p d buf now h⟩

/-- C6, counterexample: on a session with `raw_trans` set,
`client_pre_encrypt` does NOT return its input unchanged — it still emits
the handshake and packed data. -/
theorem akarin_c6_counterexample :
    c6_state.raw_trans = true ∧
    (c6_state.client_pre_encrypt fp obfs_auth_akarin_data.init [1, 2, 3] 0).1 ≠
      [1, 2, 3] := by
  constructor
  · decide
  · decide

/-- C6, witness: the amended theorem applied to a concrete raw_trans
session, a two-operation trace, and concrete pass-through calls. -/
theorem akarin_c6_raw_trans_amended_witness :
    (apply_ops fp [SessionOp.client_post [5], SessionOp.server_pre []]
      (c6_state, obfs_auth_akarin_data.init)).1.raw_trans = true ∧
    c6_state.client_post_decrypt fp [7] = (.ok [7], c6_state) ∧
    c6_state.server_pre_encrypt fp [9] = ([9], c6_state) ∧
    c6_state.server_post_decrypt fp obfs_auth_akarin_data.init [3] 0 =
      (.ok [3] false, c6_state, obfs_auth_akarin_data.init) :=
  ⟨akarin_c6_raw_trans_amended.1 fp [SessionOp.client_post [5], SessionOp.server_pre []]
      (c6_state, obfs_auth_akarin_data.init) (by decide),
   akarin_c6_raw_trans_amended.2.1 c6_state fp [7] (by decide),
   akarin_c6_raw_trans_amended.2.2.1 c6_state fp [9] (by decide),
   akarin_c6_raw_trans_amended.2.2.2 c6_state fp obfs_auth_akarin_data.init [3] 0
     (by decide)⟩

/-!  ## Claim C3: the 0xff00 MSS command framing -/

/-- Taking exactly the length of the left part of an append. -/
theorem take_len_append (a b : Bytes) (n : Nat) (h : a.length = n) : (a ++ b).take n = a := by
  subst h
  exact List.take_left a b

/-- Dropping exactly the length of the left part of an append. -/
theorem drop_len_append (a b : Bytes) (n : Nat) (h : a.length = n) : (a ++ b).drop n = b := by
  subst h
  exact List.drop_left a b

/-- A packed u16 is two bytes. -/
theorem packH_length (n : Nat) : (packH n).length = 2 := rfl

/-- With a queued command, `pack_client_data` emits the 2-byte command word
`0xff00 XOR u16_le(last_client_hash[14:16])`, then the length word masked
with `last_client_hash[12:14]` — and does NOT dequeue `send_back_cmd`. -/
theorem pack_client_data_cmd_shape (s : auth_akarin_state) (p : Prims) (buf : Bytes)
    (h : s.send_back_cmd ≠ []) :
    (s.pack_client_data p buf).1.take 2 =
      packH (0xff00 ^^^ unpackH (s.last_client_hash.drop 14)) ∧
    ((s.pack_client_data p buf).1.drop 2).take 2 =
      packH ((s.encryptor.encrypt p buf).1.length ^^^
        unpackH ((s.last_client_hash.drop 12).take 2)) ∧
    (s.pack_client_data p buf).2.send_back_cmd = s.send_back_cmd := by
  unfold auth_akarin_state.pack_client_data
  simp only [h, if_true, ne_eq, not_false_eq_true, reduceIte]
  refine ⟨?_, ?_, trivial⟩
  · rw [List.append_assoc]
    exact take_len_append _ _ 2 (packH_length _)
  · rw [List.append_assoc]
    rw [drop_len_append _ _ 2 (packH_length _)]
    rw [List.append_assoc]
    exact take_len_append _ _ 2 (packH_length _)

/-- With an empty command queue, `pack_client_data` starts with the length
word masked with `last_client_hash[14:16]`. -/
theorem pack_client_data_nocmd_shape (s : auth_akarin_state) (p : Prims) (buf : Bytes)
    (h : s.send_back_cmd = []) :
    (s.pack_client_data p buf).1.take 2 =
      packH ((s.encryptor.encrypt p buf).1.length ^^^
        unpackH (s.last_client_hash.drop 14)) ∧
    (s.pack_client_data p buf).2.send_back_cmd = s.send_back_cmd := by
  unfold auth_akarin_state.pack_client_data
  simp only [h, ne_eq, not_true_eq_false, reduceIte, if_false]
  refine ⟨?_, trivial⟩
  rw [List.append_assoc]
  exact take_len_append _ _ 2 (packH_length _)

/-- `recv_rnd_data_len` does not read `recv_buf`. -/
theorem recv_rnd_data_len_recv_buf (s : auth_akarin_state) (rb : Bytes) (B : Nat)
    (lh : Bytes) (r : xorshift128plus) :
    ({ s with recv_buf := rb } : auth_akarin_state).recv_rnd_data_len B lh r =
      s.recv_rnd_data_len B lh r := rfl

/-- `uk` does not read `recv_buf`. -/
theorem uk_recv_buf (s : auth_akarin_state) (rb : Bytes) :
    ({ s with recv_buf := rb } : auth_akarin_state).uk = s.uk := rfl

/-- The client decode loop exits immediately on an empty buffer. -/
theorem client_post_decrypt_loop_empty (s : auth_akarin_state) (p : Prims) (fuel : Nat)
    (out : Bytes) (h : s.recv_buf = []) :
    s.client_post_decrypt_loop p fuel out = (.ok out, s) := by
  cases fuel
  · rfl
  · rw [auth_akarin_state.client_post_decrypt_loop]
    simp [h]

/-- Decoding the server's first packet (`recv_id = 1`, one complete,
verifying packet in the buffer) appends `0xff00` to `send_back_cmd`, sets
`recv_tcp_mss` from the first two plaintext bytes, and returns the
plaintext with that 2-byte MSS prefix stripped. -/
theorem client_first_packet_enqueues_cmd (s : auth_akarin_state) (p : Prims)
    (buf : Bytes) (dl rl : Nat)
    (hraw : s.raw_trans = false) (hrb : s.recv_buf = []) (hrid : s.recv_id = 1)
    (hlen : buf.length > 4)
    (hdl : dl = unpackH (buf.take 2) ^^^ unpackH ((s.last_server_hash.drop 14).take 2))
    (hrl : rl = (s.recv_rnd_data_len dl s.last_server_hash s.random_server).1)
    (h4096 : dl + rl < 4096)
    (hexact : dl + rl + 4 = buf.length)
    (htag : (p.hmac (s.uk ++ packI s.recv_id) (buf.take (dl + rl + 2))).take 2 =
      (buf.drop (dl + rl + 2)).take 2) :
    (s.client_post_decrypt p buf).2.send_back_cmd = s.send_back_cmd ++ [0xff00] ∧
    (s.client_post_decrypt p buf).2.recv_tcp_mss =
      unpackH ((s.encryptor.decrypt p ((buf.drop 2).take dl)).1.take 2) ∧
    (s.client_post_decrypt p buf).1 =
      .ok ((s.encryptor.decrypt p ((buf.drop 2).take dl)).1.drop 2) := by
  subst hdl
  subst hrl
  unfold auth_akarin_state.client_post_decrypt
  rw [if_neg (by simp [hraw])]
  simp only [hrb, List.nil_append, List.length_nil, Nat.zero_add]
  rw [auth_akarin_state.client_post_decrypt_loop]
  rw [if_pos hlen]
  simp only [recv_rnd_data_len_recv_buf]
  rw [if_neg (by omega)]
  rw [if_neg (by omega)]
  simp only [uk_recv_buf]
  rw [if_neg (not_not_intro htag)]
  rw [if_pos hrid]
  rw [client_post_decrypt_loop_empty _ p _ _ (by dsimp only; rw [hexact, List.drop_length])]
  refine ⟨rfl, rfl, rfl⟩

/-- C3 (amended): decoding the server's first packet updates `recv_tcp_mss`
and enqueues `0xff00`; every `pack_client_data` call with a non-empty
`send_back_cmd` uses the with-command framing AND leaves `send_back_cmd`
unchanged (the queue is never dequeued, so all later packets keep the
with-command framing); the without-command framing is used only while the
queue is empty. -/
theorem akarin_c3_mss_command :
    (∀ (s : auth_akarin_state) (p : Prims) (buf : Bytes) (dl rl : Nat),
      s.raw_trans = false → s.recv_buf = [] → s.recv_id = 1 → buf.length > 4 →
      dl = unpackH (buf.take 2) ^^^ unpackH ((s.last_server_hash.drop 14).take 2) →
      rl = (s.recv_rnd_data_len dl s.last_server_hash s.random_server).1 →
      dl + rl < 4096 → dl + rl + 4 = buf.length →
      (p.hmac (s.uk ++ packI s.recv_id) (buf.take (dl + rl + 2))).take 2 =
        (buf.drop (dl + rl + 2)).take 2 →
      (s.client_post_decrypt p buf).2.send_back_cmd = s.send_back_cmd ++ [0xff00] ∧
      (s.client_post_decrypt p buf).2.recv_tcp_mss =
        unpackH ((s.encryptor.decrypt p ((buf.drop 2).take dl)).1.take 2) ∧
      (s.client_post_decrypt p buf).1 =
        .ok ((s.encryptor.decrypt p ((buf.drop 2).take dl)).1.drop 2)) ∧
    (∀ (s : auth_akarin_state) (p : Prims) (buf : Bytes), s.send_back_cmd ≠ [] →
      (s.pack_client_data p buf).1.take 2 =
        packH (0xff00 ^^^ unpackH (s.last_client_hash.drop 14)) ∧
      ((s.pack_client_data p buf).1.drop 2).take 2 =
        packH ((s.encryptor.encrypt p buf).1.length ^^^
          unpackH ((s.last_client_hash.drop 12).take 2)) ∧
      (s.pack_client_data p buf).2.send_back_cmd = s.send_back_cmd) ∧
    (∀ (s : auth_akarin_state) (p : Prims) (buf : Bytes), s.send_back_cmd = [] →
      (s.pack_client_data p buf).1.take 2 =
        packH ((s.encryptor.encrypt p buf).1.length ^^^
          unpackH (s.last_client_hash.drop 14)) ∧
      (s.pack_client_data p buf).2.send_back_cmd = s.send_back_cmd) :=
  ⟨client_first_packet_enqueues_cmd, pack_client_data_cmd_shape,
   pack_client_data_nocmd_shape⟩

/-- The without-command framing exactly as the claim words it (length word
masked with `last_client_hash[14:16]`, no command prefix): the claim says
packets after the first command packet revert to this. -/
def pack_client_data_no_cmd (s : auth_akarin_state) (p : Prims) (buf : Bytes) :
    Bytes × auth_akarin_state :=
  let eb := s.encryptor.encrypt p buf
  let s := { s with encryptor := eb.2 }
  let rd := s.rnd_data p eb.1.length eb.1 s.last_client_hash s.random_client
  let s := { s with random_client := rd.2.1, rnd_pos := rd.2.2 }
  let data := packH (eb.1.length ^^^ unpackH (s.last_client_hash.drop 14)) ++ rd.1
  let mac_key := s.uk ++ packI s.pack_id
  let h := p.hmac mac_key data
  (data ++ h.take 2,
   { s with last_client_hash := h, pack_id := (s.pack_id + 1) % 4294967296 })

/-- A client state with `0xff00` queued, concrete hashes and cipher. -/
def c3_state : auth_akarin_state :=
  let s0 := auth_akarin_init c8_si
  { s0 with
    user_key := some [49, 49],
    last_client_hash := List.range 16,
    send_back_cmd := [0xff00],
    send_tcp_mss := 14,
    recv_tcp_mss := 14,
    encryptor := ⟨[1, 2], [3, 4], none, 0, 0⟩ }

/-- The client state after the first (with-command) packet is emitted. -/
def c3_after_first : auth_akarin_state := (c3_state.pack_client_data fp [7, 7, 7]).2

/-- C3, counterexample: after the first with-command packet, the command is
still queued, and the SECOND packet does not revert: its bytes differ from
the without-command framing the claim prescribes. -/
theorem akarin_c3_counterexample :
    c3_after_first.send_back_cmd = [0xff00] ∧
    (c3_after_first.pack_client_data fp [8, 8]).1 ≠
      (pack_client_data_no_cmd c3_after_first fp [8, 8]).1 := by
  constructor
  · decide
  · decide

/-- A fresh client state (recv_id 1) with zero last-server hash, for the
first-packet witness. -/
def c3w_state : auth_akarin_state :=
  let s0 := auth_akarin_init c8_si
  { s0 with
    user_key := some [49, 49],
    recv_tcp_mss := 19,
    last_server_hash := List.replicate 16 0 }

/-- A concrete first server packet body: masked length word 8, 8 data bytes
and no padding (the padding draw is `x % 2 = 0` for this state). -/
def c3w_body : Bytes := [8, 0] ++ List.replicate 8 1

/-- The packet body plus its 2-byte HMAC tag. -/
def c3w_buf : Bytes := c3w_body ++ (fp.hmac ([49, 49] ++ packI 1) c3w_body).take 2

/-- C3, witness: the amended theorem applied to a concrete first server
packet and concrete with-command / without-command pack calls. -/
theorem akarin_c3_mss_command_witness :
    ((c3w_state.client_post_decrypt fp c3w_buf).2.send_back_cmd =
        c3w_state.send_back_cmd ++ [0xff00] ∧
      (c3w_state.client_post_decrypt fp c3w_buf).2.recv_tcp_mss =
        unpackH ((c3w_state.encryptor.decrypt fp ((c3w_buf.drop 2).take 8)).1.take 2) ∧
      (c3w_state.client_post_decrypt fp c3w_buf).1 =
        .ok ((c3w_state.encryptor.decrypt fp ((c3w_buf.drop 2).take 8)).1.drop 2)) ∧
    ((c3_state.pack_client_data fp [7, 7, 7]).1.take 2 =
        packH (0xff00 ^^^ unpackH (c3_state.last_client_hash.drop 14)) ∧
      ((c3_state.pack_client_data fp [7, 7, 7]).1.drop 2).take 2 =
        packH ((c3_state.encryptor.encrypt fp [7, 7, 7]).1.length ^^^
          unpackH ((c3_state.last_client_hash.drop 12).take 2)) ∧
      (c3_state.pack_client_data fp [7, 7, 7]).2.send_back_cmd = c3_state.send_back_cmd) ∧
    ((c10_state.pack_client_data fp [1]).1.take 2 =
        packH ((c10_state.encryptor.encrypt fp [1]).1.length ^^^
          unpackH (c10_state.last_client_hash.drop 14)) ∧
      (c10_state.pack_client_data fp [1]).2.send_back_cmd = c10_state.send_back_cmd) :=
  ⟨akarin_c3_mss_command.1 c3w_state fp c3w_buf 8 0 (by decide) (by decide) (by decide)
      (by decide) (by decide) (by decide) (by decide) (by decide) (by decide),
   akarin_c3_mss_command.2.1 c3_state fp [7, 7, 7] (by decide),
   akarin_c3_mss_command.2.2 c10_state fp [1] (by decide)⟩

/-! ### C2: failure handling in post_decrypt -/


theorem server_cmd_loop_bad (s : auth_akarin_state) (fuel : Nat) (rb : Bytes)
    (dl cl : Nat) (hbig : dl ≥ 0xff00) (hne : dl ≠ 0xff00) :
    s.server_cmd_loop (fuel + 1) rb dl cl =
      .fail { s with raw_trans := true, recv_buf := [] } := by
  rw [auth_akarin_state.server_cmd_loop]
  rw [if_pos hbig, if_neg hne]

theorem server_cmd_loop_small (s : auth_akarin_state) (fuel : Nat) (rb : Bytes)
    (dl cl : Nat) (hsmall : ¬ dl ≥ 0xff00) :
    s.server_cmd_loop (fuel + 1) rb dl cl = .ok rb dl cl s := by
  rw [auth_akarin_state.server_cmd_loop]
  rw [if_neg hsmall]

theorem server_post_bad_cmd (s : auth_akarin_state) (p : Prims)
    (d : obfs_auth_akarin_data) (buf : Bytes) (now : Nat) (dl : Nat)
    (hraw : s.raw_trans = false) (hh : s.has_recv_header = true)
    (hlen : (s.recv_buf ++ buf).length > 4)
    (hdl : dl = unpackH ((s.recv_buf ++ buf).take 2) ^^^
      unpackH ((s.last_client_hash.drop 14).take 2))
    (hbig : dl ≥ 0xff00) (hne : dl ≠ 0xff00) :
    ∃ s', s.server_post_decrypt p d buf now =
      ((if s.recv_id = 1 then .ok poison_E false else .raise), s', d) ∧
      s'.raw_trans = true ∧ s'.recv_buf = [] ∧ s'.recv_id = s.recv_id := by
  subst hdl
  unfold auth_akarin_state.server_post_decrypt
  rw [if_neg (by simp [hraw])]
  rw [if_neg (not_not_intro hh)]
  rw [auth_akarin_state.server_post_decrypt_loop]
  rw [if_pos hlen]
  dsimp only
  rw [server_cmd_loop_bad _ _ _ _ _ hbig hne]
  dsimp only
  unfold auth_akarin_state.server_fail
  dsimp only
  by_cases h1 : s.recv_id = 1
  · rw [if_pos h1, if_pos h1]
    exact ⟨_, rfl, rfl, rfl, rfl⟩
  · rw [if_neg h1, if_neg h1]
    exact ⟨_, rfl, rfl, rfl, rfl⟩

theorem server_post_oversize (s : auth_akarin_state) (p : Prims)
    (d : obfs_auth_akarin_data) (buf : Bytes) (now : Nat) (dl rl : Nat)
    (hraw : s.raw_trans = false) (hh : s.has_recv_header = true)
    (hlen : (s.recv_buf ++ buf).length > 4)
    (hdl : dl = unpackH ((s.recv_buf ++ buf).take 2) ^^^
      unpackH ((s.last_client_hash.drop 14).take 2))
    (hsmall : ¬ dl ≥ 0xff00)
    (hrl : rl = (s.recv_rnd_data_len (dl + 0) s.last_client_hash s.random_client).1)
    (hbig : dl + rl ≥ 4096) :
    ∃ s', s.server_post_decrypt p d buf now =
      ((if s.recv_id = 1 then .ok poison_E false else .raise), s', d) ∧
      s'.raw_trans = true ∧ s'.recv_buf = [] ∧ s'.recv_id = s.recv_id := by
  subst hdl
  subst hrl
  unfold auth_akarin_state.server_post_decrypt
  rw [if_neg (by simp [hraw])]
  rw [if_neg (not_not_intro hh)]
  rw [auth_akarin_state.server_post_decrypt_loop]
  rw [if_pos hlen]
  dsimp only
  rw [server_cmd_loop_small _ _ _ _ _ hsmall]
  dsimp only
  simp only [recv_rnd_data_len_recv_buf]
  rw [if_pos hbig]
  unfold auth_akarin_state.server_fail
  dsimp only
  by_cases h1 : s.recv_id = 1
  · rw [if_pos h1, if_pos h1]
    exact ⟨_, rfl, rfl, rfl, rfl⟩
  · rw [if_neg h1, if_neg h1]
    exact ⟨_, rfl, rfl, rfl, rfl⟩

theorem server_post_bad_checksum (s : auth_akarin_state) (p : Prims)
    (d : obfs_auth_akarin_data) (buf : Bytes) (now : Nat) (dl rl : Nat)
    (hraw : s.raw_trans = false) (hh : s.has_recv_header = true)
    (hlen : (s.recv_buf ++ buf).length > 4)
    (hdl : dl = unpackH ((s.recv_buf ++ buf).take 2) ^^^
      unpackH ((s.last_client_hash.drop 14).take 2))
    (hsmall : ¬ dl ≥ 0xff00)
    (hrl : rl = (s.recv_rnd_data_len (dl + 0) s.last_client_hash s.random_client).1)
    (hok : ¬ dl + rl ≥ 4096)
    (hfit : ¬ dl + rl + 4 > (s.recv_buf ++ buf).length)
    (htag : (p.hmac (s.uk ++ packI s.recv_id)
        ((s.recv_buf ++ buf).take (dl + rl + 0 + 2))).take 2 ≠
      ((s.recv_buf ++ buf).drop (dl + rl + 0 + 2)).take 2) :
    ∃ s', s.server_post_decrypt p d buf now =
      ((if s.recv_id = 1 then .ok poison_E false else .raise), s', d) ∧
      s'.raw_trans = true ∧ s'.recv_buf = [] ∧ s'.recv_id = s.recv_id := by
  subst hdl
  subst hrl
  unfold auth_akarin_state.server_post_decrypt
  rw [if_neg (by simp [hraw])]
  rw [if_neg (not_not_intro hh)]
  rw [auth_akarin_state.server_post_decrypt_loop]
  rw [if_pos hlen]
  dsimp only
  rw [server_cmd_loop_small _ _ _ _ _ hsmall]
  dsimp only
  simp only [recv_rnd_data_len_recv_buf]
  rw [if_neg hok]
  rw [if_neg hfit]
  simp only [uk_recv_buf]
  rw [if_pos htag]
  unfold auth_akarin_state.server_fail
  dsimp only
  by_cases h1 : s.recv_id = 1
  · rw [if_pos h1, if_pos h1]
    exact ⟨_, rfl, rfl, rfl, rfl⟩
  · rw [if_neg h1, if_neg h1]
    exact ⟨_, rfl, rfl, rfl, rfl⟩

theorem client_post_oversize (s : auth_akarin_state) (p : Prims) (buf : Bytes)
    (dl rl : Nat) (hraw : s.raw_trans = false)
    (hlen : (s.recv_buf ++ buf).length > 4)
    (hdl : dl = unpackH ((s.recv_buf ++ buf).take 2) ^^^
      unpackH ((s.last_server_hash.drop 14).take 2))
    (hrl : rl = (s.recv_rnd_data_len dl s.last_server_hash s.random_server).1)
    (hbig : dl + rl ≥ 4096) :
    ∃ s', s.client_post_decrypt p buf = (.raise, s') ∧
      s'.raw_trans = true ∧ s'.recv_buf = [] ∧ s'.recv_id = s.recv_id := by
  subst hdl
  subst hrl
  unfold auth_akarin_state.client_post_decrypt
  rw [if_neg (by simp [hraw])]
  rw [auth_akarin_state.client_post_decrypt_loop]
  rw [if_pos hlen]
  dsimp only
  simp only [recv_rnd_data_len_recv_buf]
  rw [if_pos hbig]
  exact ⟨_, rfl, rfl, rfl, rfl⟩

theorem client_post_bad_checksum (s : auth_akarin_state) (p : Prims) (buf : Bytes)
    (dl rl : Nat) (hraw : s.raw_trans = false)
    (hlen : (s.recv_buf ++ buf).length > 4)
    (hdl : dl = unpackH ((s.recv_buf ++ buf).take 2) ^^^
      unpackH ((s.last_server_hash.drop 14).take 2))
    (hrl : rl = (s.recv_rnd_data_len dl s.last_server_hash s.random_server).1)
    (hok : ¬ dl + rl ≥ 4096)
    (hfit : ¬ dl + rl + 4 > (s.recv_buf ++ buf).length)
    (htag : (p.hmac (s.uk ++ packI s.recv_id)
        ((s.recv_buf ++ buf).take (dl + rl + 2))).take 2 ≠
      ((s.recv_buf ++ buf).drop (dl + rl + 2)).take 2) :
    ∃ s', s.client_post_decrypt p buf = (.raise, s') ∧
      s'.raw_trans = true ∧ s'.recv_buf = [] ∧ s'.recv_id = s.recv_id := by
  subst hdl
  subst hrl
  unfold auth_akarin_state.client_post_decrypt
  rw [if_neg (by simp [hraw])]
  rw [auth_akarin_state.client_post_decrypt_loop]
  rw [if_pos hlen]
  dsimp only
  simp only [recv_rnd_data_len_recv_buf]
  rw [if_neg hok]
  rw [if_neg hfit]
  simp only [uk_recv_buf]
  rw [if_pos htag]
  exact ⟨_, rfl, rfl, rfl, rfl⟩

/-- C2: whenever server_post_decrypt or client_post_decrypt detects a malformed
packet - a command word at or above 0xff00 other than 0xff00 itself, a combined
data-plus-random length of 4096 or more, or a 2-byte HMAC checksum mismatch on a
complete packet - the receiver sets raw_trans, clears recv_buf, and leaves
recv_id unchanged; the server returns the 2048-byte poison reply b'E'*2048 with
sendback False when recv_id = 1 and raises otherwise, while the client always
raises. -/
theorem akarin_c2_failure_policy :
    (∀ (s : auth_akarin_state) (p : Prims) (d : obfs_auth_akarin_data) (buf : Bytes)
      (now : Nat) (dl : Nat),
      s.raw_trans = false → s.has_recv_header = true →
      (s.recv_buf ++ buf).length > 4 →
      dl = unpackH ((s.recv_buf ++ buf).take 2) ^^^
        unpackH ((s.last_client_hash.drop 14).take 2) →
      dl ≥ 0xff00 → dl ≠ 0xff00 →
      ∃ s', s.server_post_decrypt p d buf now =
        ((if s.recv_id = 1 then .ok poison_E false else .raise), s', d) ∧
        s'.raw_trans = true ∧ s'.recv_buf = [] ∧ s'.recv_id = s.recv_id) ∧
    (∀ (s : auth_akarin_state) (p : Prims) (d : obfs_auth_akarin_data) (buf : Bytes)
      (now : Nat) (dl rl : Nat),
      s.raw_trans = false → s.has_recv_header = true →
      (s.recv_buf ++ buf).length > 4 →
      dl = unpackH ((s.recv_buf ++ buf).take 2) ^^^
        unpackH ((s.last_client_hash.drop 14).take 2) →
      ¬ dl ≥ 0xff00 →
      rl = (s.recv_rnd_data_len (dl + 0) s.last_client_hash s.random_client).1 →
      dl + rl ≥ 4096 →
      ∃ s', s.server_post_decrypt p d buf now =
        ((if s.recv_id = 1 then .ok poison_E false else .raise), s', d) ∧
        s'.raw_trans = true ∧ s'.recv_buf = [] ∧ s'.recv_id = s.recv_id) ∧
    (∀ (s : auth_akarin_state) (p : Prims) (d : obfs_auth_akarin_data) (buf : Bytes)
      (now : Nat) (dl rl : Nat),
      s.raw_trans = false → s.has_recv_header = true →
      (s.recv_buf ++ buf).length > 4 →
      dl = unpackH ((s.recv_buf ++ buf).take 2) ^^^
        unpackH ((s.last_client_hash.drop 14).take 2) →
      ¬ dl ≥ 0xff00 →
      rl = (s.recv_rnd_data_len (dl + 0) s.last_client_hash s.random_client).1 →
      ¬ dl + rl ≥ 4096 → ¬ dl + rl + 4 > (s.recv_buf ++ buf).length →
      (p.hmac (s.uk ++ packI s.recv_id)
          ((s.recv_buf ++ buf).take (dl + rl + 0 + 2))).take 2 ≠
        ((s.recv_buf ++ buf).drop (dl + rl + 0 + 2)).take 2 →
      ∃ s', s.server_post_decrypt p d buf now =
        ((if s.recv_id = 1 then .ok poison_E false else .raise), s', d) ∧
        s'.raw_trans = true ∧ s'.recv_buf = [] ∧ s'.recv_id = s.recv_id) ∧
    (∀ (s : auth_akarin_state) (p : Prims) (buf : Bytes) (dl rl : Nat),
      s.raw_trans = false → (s.recv_buf ++ buf).length > 4 →
      dl = unpackH ((s.recv_buf ++ buf).take 2) ^^^
        unpackH ((s.last_server_hash.drop 14).take 2) →
      rl = (s.recv_rnd_data_len dl s.last_server_hash s.random_server).1 →
      dl + rl ≥ 4096 →
      ∃ s', s.client_post_decrypt p buf = (.raise, s') ∧
        s'.raw_trans = true ∧ s'.recv_buf = [] ∧ s'.recv_id = s.recv_id) ∧
    (∀ (s : auth_akarin_state) (p : Prims) (buf : Bytes) (dl rl : Nat),
      s.raw_trans = false → (s.recv_buf ++ buf).length > 4 →
      dl = unpackH ((s.recv_buf ++ buf).take 2) ^^^
        unpackH ((s.last_server_hash.drop 14).take 2) →
      rl = (s.recv_rnd_data_len dl s.last_server_hash s.random_server).1 →
      ¬ dl + rl ≥ 4096 → ¬ dl + rl + 4 > (s.recv_buf ++ buf).length →
      (p.hmac (s.uk ++ packI s.recv_id)
          ((s.recv_buf ++ buf).take (dl + rl + 2))).take 2 ≠
        ((s.recv_buf ++ buf).drop (dl + rl + 2)).take 2 →
      ∃ s', s.client_post_decrypt p buf = (.raise, s') ∧
        s'.raw_trans = true ∧ s'.recv_buf = [] ∧ s'.recv_id = s.recv_id) :=
  ⟨fun s p d buf now dl h1 h2 h3 h4 h5 h6 =>
      server_post_bad_cmd s p d buf now dl h1 h2 h3 h4 h5 h6,
   fun s p d buf now dl rl h1 h2 h3 h4 h5 h6 h7 =>
      server_post_oversize s p d buf now dl rl h1 h2 h3 h4 h5 h6 h7,
   fun s p d buf now dl rl h1 h2 h3 h4 h5 h6 h7 h8 h9 =>
      server_post_bad_checksum s p d buf now dl rl h1 h2 h3 h4 h5 h6 h7 h8 h9,
   fun s p buf dl rl h1 h2 h3 h4 h5 =>
      client_post_oversize s p buf dl rl h1 h2 h3 h4 h5,
   fun s p buf dl rl h1 h2 h3 h4 h5 h6 h7 =>
      client_post_bad_checksum s p buf dl rl h1 h2 h3 h4 h5 h6 h7⟩

def c2s_state : auth_akarin_state :=
  let s0 := auth_akarin_init c8_si
  { s0 with
    has_recv_header := true,
    user_key := some [49, 49],
    last_client_hash := List.replicate 16 0 }

def c2c_state : auth_akarin_state :=
  let s0 := auth_akarin_init c8_si
  { s0 with
    user_key := some [49, 49],
    last_server_hash := List.replicate 16 0 }

theorem akarin_c2_failure_policy_witness :
    (∃ s', c2s_state.server_post_decrypt fp obfs_auth_akarin_data.init
        (packH 0xff01 ++ [0, 0, 0]) 0 =
      ((if c2s_state.recv_id = 1 then .ok poison_E false else .raise), s',
        obfs_auth_akarin_data.init) ∧
      s'.raw_trans = true ∧ s'.recv_buf = [] ∧ s'.recv_id = c2s_state.recv_id) ∧
    (∃ s', c2c_state.client_post_decrypt fp (packH 5000 ++ [0, 0, 0]) = (.raise, s') ∧
      s'.raw_trans = true ∧ s'.recv_buf = [] ∧ s'.recv_id = c2c_state.recv_id) :=
  ⟨akarin_c2_failure_policy.1 c2s_state fp obfs_auth_akarin_data.init
      (packH 0xff01 ++ [0, 0, 0]) 0 0xff01 (by decide) (by decide) (by decide)
      (by decide) (by decide) (by decide),
   akarin_c2_failure_policy.2.2.2.1 c2c_state fp (packH 5000 ++ [0, 0, 0]) 5000
      ((c2c_state.recv_rnd_data_len 5000 c2c_state.last_server_hash
        c2c_state.random_server).1) (by decide) (by decide) (by decide) rfl (by decide)⟩
